import Mathlib

/-!
Verification of the Wheel4 resilient LLM request pipeline
(repository uspraveen/Wheel4, file src/ai_service.py).

The Python source is shallowly embedded:
* Python strings are `List Char` (`PyStr`);
* Python float arithmetic in the token estimators is modelled exactly over
  `ℚ` (the concrete constants 3.5, 1.3, 1.1, 2, 1024 make every operation
  either exact in binary floating point or irrelevant to the stated
  properties, as noted at each definition);
* Python dynamic values (the JSON-ish dicts flowing through the response
  normalizer) are an inductive `Json` type, with Python `dict` as an
  ordered association list with unique keys;
* machine integers are `Nat`/`Int` (no overflow is reachable: all counts
  are small).
-/

/-- Python strings are modelled as lists of characters. -/
abbrev PyStr := List Char

/-- Whitespace as recognised by Python's `str.strip()` / `str.split()` and
the regex class `\s`: the six ASCII whitespace characters.  (Python also
treats some Unicode code points as whitespace; none of the properties below
depend on those.) -/
def isPySpace (c : Char) : Bool :=
  c = ' ' || c = '\t' || c = '\n' || c = '\x0d' || c = '\x0b' || c = '\x0c'

/-- Python `str.strip()`: drop whitespace from both ends. -/
def pyStrip (s : PyStr) : PyStr :=
  ((s.dropWhile isPySpace).reverse.dropWhile isPySpace).reverse

/-- Helper for `wordCount`: counts maximal non-whitespace runs; the flag
records whether the scan is currently inside a run. -/
def wordCountAux : Bool → PyStr → Nat
  | _, [] => 0
  | inWord, c :: rest =>
    if isPySpace c then wordCountAux false rest
    else (if inWord then 0 else 1) + wordCountAux true rest

/-- Python `len(text.split())`: the number of maximal whitespace-separated
words of the string. -/
def wordCount (s : PyStr) : Nat := wordCountAux false s

/-- Model of `estimate_tokens_accurately` (src/ai_service.py lines 321-333).
`if not text` is string truthiness (empty string).  The float expression
`int((char_count / 3.5 + word_count * 1.3) / 2 * 1.1)` is modelled exactly
over `ℚ`; Python `int()` truncates toward zero, which equals the floor on
this nonnegative value. -/
def estimate_tokens_accurately (text : PyStr) : Nat :=
  if text = [] then 0
  else
    let char_count : ℚ := text.length
    let word_count : ℚ := wordCount text
    let base_tokens : ℚ := char_count / 3.5
    let word_tokens : ℚ := word_count * 1.3
    let estimated : Nat := (⌊(base_tokens + word_tokens) / 2 * 1.1⌋).toNat
    max estimated (wordCount text)

/-- Model of `estimate_image_tokens` (src/ai_service.py lines 335-347).
The input is an optional byte sequence (bytes as `Nat`s; only the length
matters).  `if not image_bytes` is Python truthiness: both `None` and the
empty byte string take the early-return-0 branch.  `size_kb = len(...) /
1024` is exact in floating point (division by a power of two), modelled
over `ℚ`. -/
def estimate_image_tokens (image_bytes : Option (List Nat)) : Nat :=
  match image_bytes with
  | none => 0
  | some bs =>
    if bs = [] then 0
    else
      let size_kb : ℚ := (bs.length : ℚ) / 1024
      if size_kb < 100 then 400
      else if size_kb < 300 then 600
      else 1000

/-- Python truthiness of the optional byte-sequence argument (`if screenshot`):
present and non-empty. -/
def bytesTruthy : Option (List Nat) → Bool
  | none => false
  | some bs => !bs.isEmpty

/-- The response-token planning slice of `_make_simple_ai_request`
(src/ai_service.py lines 112-122), with its constants
`MAX_TOTAL_TOKENS = 32000`, `MAX_RESPONSE_TOKENS = 4000`,
`TOKEN_BUFFER = 1000`:

`screenshot_tokens = estimate_image_tokens(screenshot) if screenshot else 0`,
`available_tokens = MAX_TOTAL_TOKENS - total_input_tokens - TOKEN_BUFFER`,
`response_tokens = min(MAX_RESPONSE_TOKENS, max(1000, available_tokens))`. -/
def compute_response_tokens (system_prompt user_prompt : PyStr)
    (screenshot : Option (List Nat)) : Int :=
  let system_tokens : Int := estimate_tokens_accurately system_prompt
  let user_tokens : Int := estimate_tokens_accurately user_prompt
  let screenshot_tokens : Int :=
    if bytesTruthy screenshot then estimate_image_tokens screenshot else 0
  let total_input_tokens := system_tokens + user_tokens + screenshot_tokens
  let available_tokens := 32000 - total_input_tokens - 1000
  min 4000 (max 1000 available_tokens)

theorem wordCountAux_append_le (xs ys : PyStr) (b : Bool) :
    wordCountAux b xs ≤ wordCountAux b (xs ++ ys) := by
  induction xs generalizing b with
  | nil => exact Nat.zero_le _
  | cons c rest ih =>
    simp only [List.cons_append, wordCountAux]
    split
    · exact ih false
    · exact Nat.add_le_add_left (ih true) _

/-- Word count never decreases when text is appended on the right. -/
theorem wordCount_append_le (s t : PyStr) : wordCount s ≤ wordCount (s ++ t) :=
  wordCountAux_append_le s t false

/-- C7: `EstimateTextTokens` (`estimate_tokens_accurately`) is monotonically
non-decreasing under concatenation: for every pair of strings `s` and `t`,
the estimate of `s ++ t` is at least the estimate of `s`. -/
theorem estimate_tokens_monotone_concat (s t : PyStr) :
    estimate_tokens_accurately s ≤ estimate_tokens_accurately (s ++ t) := by
  by_cases hs : s = []
  · subst hs; simp [estimate_tokens_accurately]
  · have hst : s ++ t ≠ [] := fun h => hs (List.append_eq_nil.mp h).1
    simp only [estimate_tokens_accurately, if_neg hs, if_neg hst]
    have hw : wordCount s ≤ wordCount (s ++ t) := wordCount_append_le s t
    have hc : (s.length : ℚ) ≤ ((s ++ t).length : ℚ) := by
      have : s.length ≤ (s ++ t).length := by
        simp [List.length_append]
      exact_mod_cast this
    have hwq : (wordCount s : ℚ) ≤ (wordCount (s ++ t) : ℚ) := by exact_mod_cast hw
    have hq : ((s.length : ℚ) / 3.5 + (wordCount s : ℚ) * 1.3) / 2 * 1.1 ≤
        (((s ++ t).length : ℚ) / 3.5 + (wordCount (s ++ t) : ℚ) * 1.3) / 2 * 1.1 := by
      gcongr
    exact max_le_max (Int.toNat_le_toNat (Int.floor_le_floor hq)) hw

/-- C8: `EstimateTextTokens` returns 0 for the empty string, and for every
non-empty string its result is at least the whitespace-separated word
count. -/
theorem estimate_tokens_empty_and_word_floor :
    estimate_tokens_accurately [] = 0 ∧
    ∀ s : PyStr, s ≠ [] → wordCount s ≤ estimate_tokens_accurately s := by
  refine ⟨by simp [estimate_tokens_accurately], ?_⟩
  intro s hs
  simp only [estimate_tokens_accurately, if_neg hs]
  exact le_max_right _ _

theorem estimate_tokens_empty_and_word_floor_witness :
    ("hello brave new world".data ≠ ([] : PyStr)) ∧
    wordCount ("hello brave new world".data) ≤
      estimate_tokens_accurately ("hello brave new world".data) :=
  ⟨by decide,
   estimate_tokens_empty_and_word_floor.2 ("hello brave new world".data) (by decide)⟩

/-- C2: for every system prompt, user prompt and optional image, the planned
response-token budget lies in the inclusive interval `[1000, 4000]` and
equals `min(ceiling, max(floor, totalCeiling - systemTokens - userTokens -
imageTokens - buffer))` with the constants of the source. -/
theorem compute_response_tokens_in_range (system_prompt user_prompt : PyStr)
    (screenshot : Option (List Nat)) :
    1000 ≤ compute_response_tokens system_prompt user_prompt screenshot ∧
    compute_response_tokens system_prompt user_prompt screenshot ≤ 4000 ∧
    compute_response_tokens system_prompt user_prompt screenshot =
      min 4000 (max 1000
        (32000 - (estimate_tokens_accurately system_prompt : Int)
          - (estimate_tokens_accurately user_prompt : Int)
          - (if bytesTruthy screenshot then (estimate_image_tokens screenshot : Int) else 0)
          - 1000)) := by
  simp only [compute_response_tokens]
  split_ifs <;> refine ⟨?_, ?_, ?_⟩ <;> omega

/-- C9 counterexample: on a present but empty byte sequence (size 0 bytes,
hence under 100 KB) the code returns 0, not 400, because `if not image_bytes`
treats the empty byte string like an absent image. -/
theorem estimate_image_tokens_empty_bytes_counterexample :
    estimate_image_tokens (some []) = 0 ∧ estimate_image_tokens (some []) ≠ 400 :=
  ⟨rfl, by decide⟩

/-- C9 (amended): `estimate_image_tokens` is a step function of byte-sequence
size with no error cases; an absent image or an empty byte sequence yields 0,
and every non-empty byte sequence yields 400 under 100 KB, 600 from 100 KB
up to (but excluding) 300 KB, and 1000 from 300 KB on. -/
theorem estimate_image_tokens_step_function :
    estimate_image_tokens none = 0 ∧
    estimate_image_tokens (some []) = 0 ∧
    ∀ bs : List Nat, bs ≠ [] →
      (bs.length < 102400 → estimate_image_tokens (some bs) = 400) ∧
      (102400 ≤ bs.length → bs.length < 307200 → estimate_image_tokens (some bs) = 600) ∧
      (307200 ≤ bs.length → estimate_image_tokens (some bs) = 1000) := by
  refine ⟨rfl, rfl, fun bs hbs => ?_⟩
  have e : estimate_image_tokens (some bs) =
      (if (bs.length : ℚ) / 1024 < 100 then 400
       else if (bs.length : ℚ) / 1024 < 300 then 600 else 1000) := by
    simp [estimate_image_tokens, hbs]
  have h1024 : (0:ℚ) < 1024 := by norm_num
  have hiff1 : ((bs.length : ℚ) / 1024 < 100) ↔ (bs.length < 102400) := by
    rw [div_lt_iff₀ h1024, show (100:ℚ)*1024 = ((102400:ℕ):ℚ) by norm_num]
    exact Nat.cast_lt
  have hiff2 : ((bs.length : ℚ) / 1024 < 300) ↔ (bs.length < 307200) := by
    rw [div_lt_iff₀ h1024, show (300:ℚ)*1024 = ((307200:ℕ):ℚ) by norm_num]
    exact Nat.cast_lt
  refine ⟨fun h => ?_, fun h1 h2 => ?_, fun h => ?_⟩
  · rw [e, if_pos (hiff1.mpr h)]
  · rw [e, if_neg (fun hc => absurd (hiff1.mp hc) (by omega)),
      if_pos (hiff2.mpr h2)]
  · rw [e, if_neg (fun hc => absurd (hiff1.mp hc) (by omega)),
      if_neg (fun hc => absurd (hiff2.mp hc) (by omega))]

theorem replicate_ne_nil_of_pos {n : ℕ} (a : ℕ) (h : 0 < n) : List.replicate n a ≠ [] := by
  intro he
  have h2 := congrArg List.length he
  simp only [List.length_replicate, List.length_nil] at h2
  omega

theorem estimate_image_tokens_step_function_witness :
    estimate_image_tokens (some (List.replicate 101376 0)) = 400 ∧
    estimate_image_tokens (some (List.replicate 102400 0)) = 600 ∧
    estimate_image_tokens (some (List.replicate 306176 0)) = 600 ∧
    estimate_image_tokens (some (List.replicate 307200 0)) = 1000 :=
  ⟨(estimate_image_tokens_step_function.2.2 _ (replicate_ne_nil_of_pos 0 (by norm_num))).1
      (by rw [List.length_replicate]; norm_num),
   (estimate_image_tokens_step_function.2.2 _ (replicate_ne_nil_of_pos 0 (by norm_num))).2.1
      (by rw [List.length_replicate]) (by rw [List.length_replicate]; norm_num),
   (estimate_image_tokens_step_function.2.2 _ (replicate_ne_nil_of_pos 0 (by norm_num))).2.1
      (by rw [List.length_replicate]; norm_num) (by rw [List.length_replicate]; norm_num),
   (estimate_image_tokens_step_function.2.2 _ (replicate_ne_nil_of_pos 0 (by norm_num))).2.2
      (by rw [List.length_replicate])⟩

/-! ## RequestOrchestrator: `get_ai_response` retry loop -/

/-- Outcome of one invocation of the external transport
(`client.chat.completions.create` inside the worker thread of
`call_openai_with_enhanced_timeout`), as observed by the orchestrator. -/
inductive TransportResult where
  | success (text : PyStr)
  | apiTimeout
  | connectionError (msg : PyStr)
  | rateLimitError (msg : PyStr)
  | authError (msg : PyStr)
  | otherError (msg : PyStr)
  | watchdogTimeout
deriving DecidableEq

/-- Exceptions that can escape `call_openai_with_enhanced_timeout` into the
`except` clauses of step 9 of `_make_simple_ai_request`: `TimeoutError`,
`openai.RateLimitError`, `openai.AuthenticationError`, or any other
`Exception`. -/
inductive PyExc where
  | timeoutExc (msg : PyStr)
  | rateLimitExc (msg : PyStr)
  | authExc (msg : PyStr)
  | genericExc (msg : PyStr)
deriving DecidableEq

/-- Model of `call_openai_with_enhanced_timeout` (src/ai_service.py lines
271-318).  The worker thread's outcome is read from the result queue and
either returned (success) or raised with the source's classification: an
`openai.APITimeoutError` is re-raised as a `TimeoutError`, an
`openai.APIConnectionError` as a generic `Exception` whose message carries
the "Connection error: " prefix, every other exception raised in the
worker is re-raised as-is, and an empty queue after the 40-second watchdog
wait raises a `TimeoutError`. -/
def call_openai_with_enhanced_timeout : TransportResult → Except PyExc PyStr
  | .success text => .ok text
  | .apiTimeout => .error (.timeoutExc ("OpenAI API timed out").data)
  | .connectionError msg => .error (.genericExc (("Connection error: ").data ++ msg))
  | .rateLimitError msg => .error (.rateLimitExc msg)
  | .authError msg => .error (.authExc msg)
  | .otherError msg => .error (.genericExc msg)
  | .watchdogTimeout => .error (.timeoutExc ("API call timed out after 40 seconds").data)

/-- Value returned by `_make_simple_ai_request`: either the raw response
text or a Python `{"error": msg}` dict. -/
inductive MakeResult where
  | text (s : PyStr)
  | errorDict (msg : PyStr)
deriving DecidableEq

/-- Model of steps 9-10 of `_make_simple_ai_request` (src/ai_service.py
lines 160-221).  The configuration steps 2-8 (API key lookup, client
construction, prompt formatting, token budgeting, message assembly) are
modelled as succeeding, since the claims concern the transport call; each
attempt then performs exactly one transport invocation, whose outcome is
classified by the `except` clauses of step 9, and a successful response
shorter than 10 characters after stripping is rejected by step 10. -/
def make_simple_ai_request (t : TransportResult) : MakeResult :=
  match call_openai_with_enhanced_timeout t with
  | .error (.timeoutExc _) =>
      .errorDict ("API call timed out. Please check your internet connection and try again.").data
  | .error (.rateLimitExc _) =>
      .errorDict ("API rate limit exceeded. Please try again in a moment.").data
  | .error (.authExc _) =>
      .errorDict ("Invalid API key. Please check your OpenAI API key in settings.").data
  | .error (.genericExc msg) =>
      .errorDict (("API error: ").data ++ msg ++ (". Please try again.").data)
  | .ok text =>
      if text = [] ∨ (pyStrip text).length < 10 then
        .errorDict ("Received empty or invalid response from AI").data
      else .text text

/-- The success test of the retry loop in `get_ai_response` (line 44):
`result and not (isinstance(result, dict) and "error" in result)` -- a
non-empty string is a success, an error dict is not. -/
def isGoodResult : MakeResult → Bool
  | .text s => !s.isEmpty
  | .errorDict _ => false

/-- The retry loop of `get_ai_response` (src/ai_service.py lines 29-60)
with `max_retries = 3`, instrumented with the number of transport
invocations performed (second component of the result).  `attempt` is the
current loop index and `remaining` the number of iterations left
(`max_retries - attempt`; the `remaining = 0` case is unreachable from
`get_ai_response_run`).  `_make_simple_ai_request` catches every exception
internally and returns a dict, so the `except` branch of the loop -- the
only place that annotates an error with the attempt count -- is
unreachable; the loop returns the first good result immediately and, on
the final iteration, returns the last result unchanged.  The backoff
sleeps do not affect the returned value and are not modelled. -/
def get_ai_response_loop (transport : Nat → TransportResult) :
    Nat → Nat → MakeResult × Nat
  | _, 0 => (.errorDict [], 0)
  | attempt, 1 => (make_simple_ai_request (transport attempt), 1)
  | attempt, remaining + 2 =>
      let result := make_simple_ai_request (transport attempt)
      if isGoodResult result then (result, 1)
      else
        let next := get_ai_response_loop transport (attempt + 1) (remaining + 1)
        (next.1, next.2 + 1)

/-- `get_ai_response` with a stubbed transport: the returned value together
with the number of transport invocations made. -/
def get_ai_response_run (transport : Nat → TransportResult) : MakeResult × Nat :=
  get_ai_response_loop transport 0 3

/-- C3 counterexample: with a transport that reports an authentication
failure on the first (and every) attempt, `get_ai_response` invokes the
transport three times, not once: the code retries uniformly on every error
kind, including the non-retryable authentication failure. -/
theorem auth_failure_retried_counterexample :
    (get_ai_response_run (fun _ => .authError ("invalid key").data)).2 = 3 ∧
    (get_ai_response_run (fun _ => .authError ("invalid key").data)).2 ≠ 1 :=
  ⟨rfl, by decide⟩

/-- C3 (amended): an authentication failure reported by the transport is
not short-circuited; it is retried exactly like a retryable error, so a
transport failing with `AuthFailed` on every attempt is invoked exactly 3
times and the invalid-API-key error dict is surfaced after the final
attempt. -/
theorem auth_failure_uniform_retry (msg : Nat → PyStr) :
    get_ai_response_run (fun i => .authError (msg i)) =
      (.errorDict ("Invalid API key. Please check your OpenAI API key in settings.").data, 3) := by
  simp [get_ai_response_run, get_ai_response_loop, make_simple_ai_request,
    call_openai_with_enhanced_timeout, isGoodResult]

/-- C4 counterexample: with a transport that fails with a connection error
on every attempt, the transport is indeed invoked exactly 3 times, but the
surfaced error is the classified connection error with no attempt count:
the message contains neither the substring "attempts" nor the character
'3'.  (The source's `All 3 attempts failed` message is emitted only when
the per-attempt request raises, which cannot happen because
`_make_simple_ai_request` catches every exception internally.) -/
theorem connection_failure_message_counterexample :
    (get_ai_response_run (fun _ => .connectionError ("refused").data)).1 =
      .errorDict ("API error: Connection error: refused. Please try again.").data ∧
    (get_ai_response_run (fun _ => .connectionError ("refused").data)).2 = 3 ∧
    ¬ (("attempts").data <:+: ("API error: Connection error: refused. Please try again.").data) ∧
    ('3' ∉ ("API error: Connection error: refused. Please try again.").data) := by
  refine ⟨rfl, rfl, by decide, by decide⟩

/-- C4 (amended): with a transport failing with `ConnectionFailed` on every
attempt and `max_retries = 3`, the transport is invoked exactly 3 times
and the last classified connection error is returned verbatim as
"API error: Connection error: (message). Please try again.", without an
attempt-count annotation. -/
theorem connection_failure_exhausts_attempts (msg : Nat → PyStr) :
    get_ai_response_run (fun i => .connectionError (msg i)) =
      (.errorDict (("API error: Connection error: ").data ++ msg 2 ++
        (". Please try again.").data), 3) := by
  simp [get_ai_response_run, get_ai_response_loop, make_simple_ai_request,
    call_openai_with_enhanced_timeout, isGoodResult]

/-! ## ResponseNormalizer: dynamic values and `json.loads` -/

/-- Python/JSON dynamic values as they flow through the response
normalizer.  Python `dict`s are ordered association lists (`obj`) with
unique keys; numbers carry a rational value (no property below depends on
the int/float distinction). -/
inductive Json where
  | null
  | bool (b : Bool)
  | num (q : ℚ)
  | str (s : PyStr)
  | arr (items : List Json)
  | obj (fields : List (PyStr × Json))

/-- Key lookup in a Python dict: `d.get(k)` returns the value at the first
(unique) occurrence of the key. -/
def dictGet : List (PyStr × Json) → PyStr → Option Json
  | [], _ => none
  | (k, v) :: rest, key => if k = key then some v else dictGet rest key

/-- Python `d[k] = v`: overwrite in place if the key exists, keeping its
position, else append the new key at the end. -/
def dictSet : List (PyStr × Json) → PyStr → Json → List (PyStr × Json)
  | [], key, v => [(key, v)]
  | (k, w) :: rest, key, v =>
    if k = key then (k, v) :: rest else (k, w) :: dictSet rest key v

/-- Python `k in d`. -/
def hasKey (d : List (PyStr × Json)) (key : PyStr) : Bool := (dictGet d key).isSome

/-- Python `d.get(k, default)`. -/
def dictGetD (d : List (PyStr × Json)) (key : PyStr) (dflt : Json) : Json :=
  (dictGet d key).getD dflt

/-- Python truthiness of a value. -/
def truthy : Json → Bool
  | .null => false
  | .bool b => b
  | .num q => q != 0
  | .str s => !s.isEmpty
  | .arr l => !l.isEmpty
  | .obj d => !d.isEmpty

/-- Decimal rendering of a number for `str()`/`repr()` (Python float
`repr` is approximated by a fraction; no property below inspects a
rendered number). -/
def numRepr (q : ℚ) : PyStr :=
  if q.den = 1 then (toString q.num).data
  else (toString q.num).data ++ ('/' :: (toString q.den).data)

mutual

/-- Python `repr()` of a value (string escaping inside `repr` is
approximated by plain single quotes; no property below inspects a rendered
container). -/
def pyReprVal : Json → PyStr
  | .null => ("None").data
  | .bool true => ("True").data
  | .bool false => ("False").data
  | .num q => numRepr q
  | .str s => '\'' :: (s ++ ['\''])
  | .arr items => '[' :: (pyReprItems items ++ [']'])
  | .obj fields => '{' :: (pyReprPairs fields ++ ['}'])

def pyReprItems : List Json → PyStr
  | [] => []
  | [v] => pyReprVal v
  | v :: rest => pyReprVal v ++ (", ").data ++ pyReprItems rest

def pyReprPairs : List (PyStr × Json) → PyStr
  | [] => []
  | [(k, v)] => '\'' :: (k ++ ('\'' :: ((": ").data ++ pyReprVal v)))
  | (k, v) :: rest =>
      ('\'' :: (k ++ ('\'' :: ((": ").data ++ pyReprVal v)))) ++ (", ").data ++
        pyReprPairs rest

end

/-- Python `str()` of a value: like `repr`, except that a string renders
as itself. -/
def pyStr : Json → PyStr
  | .str s => s
  | v => pyReprVal v

/-- Whitespace accepted between JSON tokens by `json.loads`. -/
def isJsonWs (c : Char) : Bool := c = ' ' || c = '\t' || c = '\n' || c = '\x0d'

def skipJsonWs (s : PyStr) : PyStr := s.dropWhile isJsonWs

def hexVal (c : Char) : Option Nat :=
  if '0' ≤ c ∧ c ≤ '9' then some (c.toNat - '0'.toNat)
  else if 'a' ≤ c ∧ c ≤ 'f' then some (c.toNat - 'a'.toNat + 10)
  else if 'A' ≤ c ∧ c ≤ 'F' then some (c.toNat - 'A'.toNat + 10)
  else none

def isDigit (c : Char) : Bool := '0' ≤ c && c ≤ '9'

def digitsToNat (ds : List Char) : Nat :=
  ds.foldl (fun acc c => acc * 10 + (c.toNat - '0'.toNat)) 0

/-- Parse the body of a JSON string literal after the opening quote,
returning the decoded characters and the input after the closing quote:
the escapes accepted by `json.loads`, with raw control characters
rejected (strict mode). -/
def jsonParseStringBody : Nat → PyStr → Option (PyStr × PyStr)
  | 0, _ => none
  | _, [] => none
  | fuel+1, c :: rest =>
    if c = '"' then some ([], rest)
    else if c = '\\' then
      match rest with
      | [] => none
      | e :: rest2 =>
        let cont : Char → PyStr → Option (PyStr × PyStr) := fun decoded rem =>
          match jsonParseStringBody fuel rem with
          | some (tail, rem2) => some (decoded :: tail, rem2)
          | none => none
        if e = '"' then cont '"' rest2
        else if e = '\\' then cont '\\' rest2
        else if e = '/' then cont '/' rest2
        else if e = 'b' then cont '\x08' rest2
        else if e = 'f' then cont '\x0c' rest2
        else if e = 'n' then cont '\n' rest2
        else if e = 'r' then cont '\x0d' rest2
        else if e = 't' then cont '\t' rest2
        else if e = 'u' then
          match rest2 with
          | h1 :: h2 :: h3 :: h4 :: rest3 =>
            match hexVal h1, hexVal h2, hexVal h3, hexVal h4 with
            | some a, some b, some c2, some d =>
              let n := ((a * 16 + b) * 16 + c2) * 16 + d
              if n < 0xd800 ∨ (0xe000 ≤ n ∧ n < 0x110000) then
                cont (Char.ofNat n) rest3
              else none
            | _, _, _, _ => none
          | _ => none
        else none
    else if c.toNat < 0x20 then none
    else
      match jsonParseStringBody fuel rest with
      | some (tail, rem2) => some (c :: tail, rem2)
      | none => none

/-- Parse an optional JSON fraction part (`.digits`). -/
def jsonParseFrac (s : PyStr) : Option (ℚ × PyStr) :=
  match s with
  | '.' :: rest =>
    let fd := rest.takeWhile isDigit
    if fd = [] then none
    else some ((digitsToNat fd : ℚ) / ((10 : ℚ) ^ fd.length), rest.dropWhile isDigit)
  | _ => some (0, s)

/-- Parse an optional JSON exponent part (`e[+-]digits`). -/
def jsonParseExp (s : PyStr) : Option (Int × PyStr) :=
  match s with
  | c :: rest =>
    if c = 'e' ∨ c = 'E' then
      let signAndRest : Int × PyStr :=
        match rest with
        | '+' :: r => (1, r)
        | '-' :: r => (-1, r)
        | _ => (1, rest)
      let ed := signAndRest.2.takeWhile isDigit
      if ed = [] then none
      else some (signAndRest.1 * (digitsToNat ed : Int), signAndRest.2.dropWhile isDigit)
    else some (0, c :: rest)
  | [] => some (0, [])

/-- Parse a JSON number at the head of the input (strict `json.loads`
grammar: optional minus, integer part without leading zeros, optional
fraction and exponent), returning its rational value. -/
def jsonParseNumber (s : PyStr) : Option (ℚ × PyStr) :=
  let signAndRest : Bool × PyStr :=
    match s with
    | '-' :: rest => (true, rest)
    | _ => (false, s)
  let s1 := signAndRest.2
  let intDigits := s1.takeWhile isDigit
  let s2 := s1.dropWhile isDigit
  if intDigits = [] then none
  else if 1 < intDigits.length ∧ intDigits.head? = some '0' then none
  else
    match jsonParseFrac s2 with
    | none => none
    | some (fpart, s3) =>
      match jsonParseExp s3 with
      | none => none
      | some (e, s4) =>
        let mag : ℚ := ((digitsToNat intDigits : ℚ) + fpart) * (10 : ℚ) ^ e
        some (if signAndRest.1 then -mag else mag, s4)

mutual

/-- Fuel-indexed parser for a JSON value at the head of the input,
modelling strict `json.loads`.  The fuel only decreases on recursive
calls; `json_loads` supplies more fuel than the input length, so fuel
never runs out on any input. -/
def jsonParseValue : Nat → PyStr → Option (Json × PyStr)
  | 0, _ => none
  | fuel+1, s0 =>
    let s := skipJsonWs s0
    match s with
    | 'n' :: 'u' :: 'l' :: 'l' :: rest => some (.null, rest)
    | 't' :: 'r' :: 'u' :: 'e' :: rest => some (.bool true, rest)
    | 'f' :: 'a' :: 'l' :: 's' :: 'e' :: rest => some (.bool false, rest)
    | '"' :: rest =>
      match jsonParseStringBody (fuel+1) rest with
      | some (body, rem) => some (.str body, rem)
      | none => none
    | '[' :: rest =>
      match skipJsonWs rest with
      | ']' :: rest2 => some (.arr [], rest2)
      | r => jsonParseArrayItems fuel r []
    | '{' :: rest =>
      match skipJsonWs rest with
      | '}' :: rest2 => some (.obj [], rest2)
      | r => jsonParseObjMembers fuel r []
    | _ =>
      match jsonParseNumber s with
      | some (q, rem) => some (.num q, rem)
      | none => none

/-- Comma-separated JSON array elements up to the closing bracket. -/
def jsonParseArrayItems : Nat → PyStr → List Json → Option (Json × PyStr)
  | 0, _, _ => none
  | fuel+1, s, acc =>
    match jsonParseValue fuel s with
    | none => none
    | some (v, rem) =>
      match skipJsonWs rem with
      | ',' :: rest => jsonParseArrayItems fuel (skipJsonWs rest) (v :: acc)
      | ']' :: rest => some (.arr (v :: acc).reverse, rest)
      | _ => none

/-- Comma-separated JSON object members up to the closing brace; duplicate
keys overwrite in place as in a Python dict. -/
def jsonParseObjMembers : Nat → PyStr → List (PyStr × Json) → Option (Json × PyStr)
  | 0, _, _ => none
  | fuel+1, s, acc =>
    match s with
    | '"' :: rest =>
      match jsonParseStringBody (fuel+1) rest with
      | none => none
      | some (key, rem) =>
        match skipJsonWs rem with
        | ':' :: rest2 =>
          match jsonParseValue fuel rest2 with
          | none => none
          | some (v, rem2) =>
            match skipJsonWs rem2 with
            | ',' :: rest3 => jsonParseObjMembers fuel (skipJsonWs rest3) (dictSet acc key v)
            | '}' :: rest3 => some (.obj (dictSet acc key v), rest3)
            | _ => none
        | _ => none
    | _ => none

end

/-- Model of `json.loads`: parse one JSON document and require only
whitespace to follow. -/
def json_loads (s : PyStr) : Option Json :=
  match jsonParseValue (2 * s.length + 2) s with
  | some (v, rem) => if skipJsonWs rem = [] then some v else none
  | none => none

/-! ## ResponseNormalizer: scanner models of the regex operations -/

def notBrace (c : Char) : Bool := !(c == '{' || c == '}')

/-- Greedy matcher for the tail of regex `\{[^{}]*(?:\{[^{}]*\}[^{}]*)*\}`
after the opening brace: `[^{}]*`, then any number of `\{[^{}]*\}[^{}]*`
groups, then the closing brace.  Returns the matched characters (with the
final brace) and the remaining input.  Since `[^{}]*` cannot cross a
brace, the backtracking regex engine is deterministic here. -/
def matchBalancedTail : Nat → PyStr → Option (PyStr × PyStr)
  | 0, _ => none
  | fuel+1, s =>
    let chunk := s.takeWhile notBrace
    match s.dropWhile notBrace with
    | '}' :: r => some (chunk ++ ['}'], r)
    | '{' :: r =>
      let inner := r.takeWhile notBrace
      match r.dropWhile notBrace with
      | '}' :: r2 =>
        match matchBalancedTail fuel r2 with
        | some (m, rem) => some (chunk ++ '{' :: (inner ++ '}' :: m), rem)
        | none => none
      | _ => none
    | _ => none

/-- `re.findall` of `\{[^{}]*(?:\{[^{}]*\}[^{}]*)*\}` -- patterns 1 and 2
of `extract_json_from_response`, which denote the same language --
leftmost, non-overlapping. -/
def findBalancedBraces : Nat → PyStr → List PyStr
  | 0, _ => []
  | fuel+1, s =>
    match s with
    | [] => []
    | c :: rest =>
      if c == '{' then
        match matchBalancedTail (rest.length + 1) rest with
        | some (m, rem) => ('{' :: m) :: findBalancedBraces fuel rem
        | none => findBalancedBraces fuel rest
      else findBalancedBraces fuel rest

/-- `re.findall` of the lazy pattern `\{[\s\S]*?\}`: from each unconsumed
opening brace, the shortest stretch to a closing brace. -/
def findLazyBraces : Nat → PyStr → List PyStr
  | 0, _ => []
  | fuel+1, s =>
    match s with
    | [] => []
    | c :: rest =>
      if c == '{' then
        let before := rest.takeWhile (fun d => d != '}')
        match rest.dropWhile (fun d => d != '}') with
        | '}' :: rem => ('{' :: (before ++ ['}'])) :: findLazyBraces fuel rem
        | _ => findLazyBraces fuel rest
      else findLazyBraces fuel rest

/-- Lazy group matcher for the fenced-JSON patterns: extend the
`\{[\s\S]*?\}` group right-brace by right-brace until a closing fence
(after optional whitespace) follows; returns the group and the input after
the closing fence. -/
def matchFencedGroup : Nat → PyStr → PyStr → Option (PyStr × PyStr)
  | 0, _, _ => none
  | fuel+1, s, acc =>
    let pre := s.takeWhile (fun d => d != '}')
    match s.dropWhile (fun d => d != '}') with
    | '}' :: rem =>
      let closeCheck := rem.dropWhile isPySpace
      if ("```").data.isPrefixOf closeCheck then
        some (acc ++ pre ++ ['}'], closeCheck.drop 3)
      else matchFencedGroup fuel rem (acc ++ pre ++ ['}'])
    | _ => none

/-- Tail of the fenced-JSON regexes after the opening fence: optional
`json` tag, `\s*`, then the lazily matched `(\{[\s\S]*?\})` group followed
by `\s*` and the closing fence. -/
def matchFencedTail (allowTag : Bool) (s : PyStr) : Option (PyStr × PyStr) :=
  let s1 := if allowTag && ("json").data.isPrefixOf s then s.drop 4 else s
  let s2 := s1.dropWhile isPySpace
  match s2 with
  | '{' :: rest => matchFencedGroup (rest.length + 1) rest ['{']
  | _ => none

/-- `re.findall` of the fenced patterns 4 and 5 (` ```(?:json)?\s*(\{[\s\S]*?\})\s*``` `
and the tagless variant): the captured brace groups, leftmost,
non-overlapping. -/
def findFenced (allowTag : Bool) : Nat → PyStr → List PyStr
  | 0, _ => []
  | fuel+1, s =>
    match s with
    | [] => []
    | _ :: rest =>
      if ("```").data.isPrefixOf s then
        match matchFencedTail allowTag (s.drop 3) with
        | some (g, rem) => g :: findFenced allowTag fuel rem
        | none => findFenced allowTag fuel rest
      else findFenced allowTag fuel rest

/-- Index just after the last occurrence of a character, if any
(Python `s.rfind(c) + 1`). -/
def lastIdxAfter (c : Char) : PyStr → Option Nat
  | [] => none
  | d :: rest =>
    match lastIdxAfter c rest with
    | some k => some (k + 1)
    | none => if d == c then some 1 else none

/-- Index of the first occurrence of a character (Python `s.find(c)`). -/
def idxOf (c : Char) : PyStr → Option Nat
  | [] => none
  | d :: rest => if d == c then some 0 else (idxOf c rest).map (· + 1)

/-- The `\s*(?:\n|$)` tail of pattern 6 after the group's closing brace:
succeeds when the following whitespace run reaches the end of the string
or contains a newline (the greedy `\s*` backtracks to the run's last
newline); returns the input after the match. -/
def lineBraceClose (rem : PyStr) : Option PyStr :=
  let run := rem.takeWhile isPySpace
  if rem.dropWhile isPySpace = [] then some []
  else
    match lastIdxAfter '\n' run with
    | some k => some (rem.drop k)
    | none => none

/-- Lazy group matcher for pattern 6, analogous to `matchFencedGroup`. -/
def matchLineBraceGroup : Nat → PyStr → PyStr → Option (PyStr × PyStr)
  | 0, _, _ => none
  | fuel+1, s, acc =>
    let pre := s.takeWhile (fun d => d != '}')
    match s.dropWhile (fun d => d != '}') with
    | '}' :: rem =>
      match lineBraceClose rem with
      | some rest => some (acc ++ pre ++ ['}'], rest)
      | none => matchLineBraceGroup fuel rem (acc ++ pre ++ ['}'])
    | _ => none

/-- Body of pattern 6 after its `(?:^|\n)` anchor: `\s*`, then the
`(\{[\s\S]*?\})` group, then `\s*(?:\n|$)`. -/
def matchLineBraceAt (s : PyStr) : Option (PyStr × PyStr) :=
  match s.dropWhile isPySpace with
  | '{' :: rest => matchLineBraceGroup (rest.length + 1) rest ['{']
  | _ => none

def findLineBracesAux : Nat → PyStr → List PyStr
  | 0, _ => []
  | fuel+1, s =>
    match s with
    | [] => []
    | c :: rest =>
      if c == '\n' then
        match matchLineBraceAt rest with
        | some (g, rem) => g :: findLineBracesAux fuel rem
        | none => findLineBracesAux fuel rest
      else findLineBracesAux fuel rest

/-- `re.findall` of pattern 6, `(?:^|\n)\s*(\{[\s\S]*?\})\s*(?:\n|$)`:
the anchor is the string start (no MULTILINE flag) or a consumed
newline. -/
def findLineBraces (s : PyStr) : List PyStr :=
  match matchLineBraceAt s with
  | some (g, rem) => g :: findLineBracesAux (rem.length + 1) rem
  | none => findLineBracesAux (s.length + 1) s

/-- `cleaned_text[first_brace : last_brace+1]` when both a first `chr(123)`
and a last `chr(125)` exist and the latter follows the former (lines
395-399). -/
def firstLastBraceSlice (s : PyStr) : Option PyStr :=
  match idxOf '{' s, lastIdxAfter '}' s with
  | some i, some j => if i + 1 < j then some ((s.take j).drop i) else none
  | _, _ => none

/-- The `json_patterns` loop of `extract_json_from_response` (lines
379-399): candidates from the six regexes in order, then the
first-to-last-brace slice if none matched. -/
def collectCandidates (cleaned : PyStr) : List PyStr :=
  let l := cleaned.length + 1
  let fromPats :=
    findBalancedBraces l cleaned ++ findBalancedBraces l cleaned ++
    findLazyBraces l cleaned ++
    findFenced true l cleaned ++ findFenced false l cleaned ++
    findLineBraces cleaned
  if fromPats = [] then
    match firstLastBraceSlice cleaned with
    | some c => [c]
    | none => []
  else fromPats

/-- `re.sub(r'^```(?:json)?\s*', '', s, flags=re.MULTILINE)`: at the string
start or after a newline, remove an opening fence, its optional tag and
the following whitespace run (`\s*` may span lines); the flag tracks
whether the current position is a line start. -/
def removeFenceOpenAux : Nat → PyStr → Bool → PyStr
  | 0, s, _ => s
  | fuel+1, s, atStart =>
    if atStart && ("```").data.isPrefixOf s then
      let s1 := s.drop 3
      let s2 := if ("json").data.isPrefixOf s1 then s1.drop 4 else s1
      let ws := s2.takeWhile isPySpace
      removeFenceOpenAux fuel (s2.dropWhile isPySpace) (ws.getLast? == some '\n')
    else
      match s with
      | [] => []
      | c :: rest => c :: removeFenceOpenAux fuel rest (c == '\n')

/-- Length of a `\s*(closing fence)` match at the head of the input whose
fence sits at an end of line, if any. -/
def fenceCloseMatchLen (s : PyStr) : Option Nat :=
  let ws := s.takeWhile isPySpace
  let rest := s.dropWhile isPySpace
  if ("```").data.isPrefixOf rest then
    let after := rest.drop 3
    if after = [] || after.head? == some '\n' then some (ws.length + 3) else none
  else none

/-- `re.sub(r'\s*```$', '', s, flags=re.MULTILINE)`: remove every
whitespace run followed by a closing fence at an end of line. -/
def removeFenceCloseAux : Nat → PyStr → PyStr
  | 0, s => s
  | fuel+1, s =>
    match fenceCloseMatchLen s with
    | some k => removeFenceCloseAux fuel (s.drop k)
    | none =>
      match s with
      | [] => []
      | c :: rest => c :: removeFenceCloseAux fuel rest

/-- The four smart-quote replacements of `clean_json_string`. -/
def normalizeQuoteChar (c : Char) : Char :=
  if c == '“' || c == '”' then '"'
  else if c == '‘' || c == '’' then '\''
  else c

/-- `re.sub(r'(?<!\\)\\n', '\\\\n', s)`: double the backslash of a literal
backslash-n pair not preceded by a backslash; the flag carries the
lookbehind. -/
def escapeBackslashNAux : Nat → PyStr → Bool → PyStr
  | 0, s, _ => s
  | fuel+1, s, prevBackslash =>
    match s with
    | '\\' :: 'n' :: rest =>
      if prevBackslash then '\\' :: escapeBackslashNAux fuel ('n' :: rest) true
      else '\\' :: '\\' :: 'n' :: escapeBackslashNAux fuel rest false
    | c :: rest => c :: escapeBackslashNAux fuel rest (c == '\\')
    | [] => []

/-- Model of `clean_json_string` (src/ai_service.py lines 505-529). -/
def clean_json_string (json_str : PyStr) : PyStr :=
  if json_str = [] then json_str
  else
    let s1 := pyStrip json_str
    let s2 := removeFenceOpenAux (s1.length + 1) s1 true
    let s3 := removeFenceCloseAux (s2.length + 1) s2
    let s4 := s3.map normalizeQuoteChar
    let s5 := escapeBackslashNAux (s4.length + 1) s4 false
    match idxOf '{' s5, lastIdxAfter '}' s5 with
    | some i, some j => (s5.take j).drop i
    | _, _ => s5

/-- `re.sub(r',(\s*[}\]])', r'\1', s)`: drop a comma standing before
whitespace and a closing brace or bracket. -/
def removeTrailingCommasAux : Nat → PyStr → PyStr
  | 0, s => s
  | fuel+1, s =>
    match s with
    | [] => []
    | ',' :: rest =>
      let ws := rest.takeWhile isPySpace
      match rest.dropWhile isPySpace with
      | c :: rest2 =>
        if c == '}' || c == ']' then ws ++ c :: removeTrailingCommasAux fuel rest2
        else ',' :: removeTrailingCommasAux fuel rest
      | [] => ',' :: removeTrailingCommasAux fuel rest
    | c :: rest => c :: removeTrailingCommasAux fuel rest

/-- `re.sub(r'(?<!\\)\n(?=\s*")', '\\n', s)`: replace a newline character
not preceded by a backslash and followed by whitespace and a double quote
with a literal backslash-n pair (the lookahead is not consumed). -/
def escapeNewlineBeforeQuoteAux : Nat → PyStr → Bool → PyStr
  | 0, s, _ => s
  | fuel+1, s, prevBackslash =>
    match s with
    | [] => []
    | '\n' :: rest =>
      if !prevBackslash && (rest.dropWhile isPySpace).head? == some '"' then
        '\\' :: 'n' :: escapeNewlineBeforeQuoteAux fuel rest false
      else '\n' :: escapeNewlineBeforeQuoteAux fuel rest false
    | c :: rest => c :: escapeNewlineBeforeQuoteAux fuel rest (c == '\\')

def isWordChar (c : Char) : Bool :=
  ('a' ≤ c && c ≤ 'z') || ('A' ≤ c && c ≤ 'Z') || ('0' ≤ c && c ≤ '9') || c == '_'

/-- `re.sub(r'(\w+)(\s*:)', r'"\1"\2', s)`: wrap every maximal word run
followed by optional whitespace and a colon in double quotes.  (A shorter,
backtracked word run is always followed by a word character, which can
match neither `\s` nor `:`, so the backtracking engine is deterministic
here.) -/
def quoteBareKeysAux : Nat → PyStr → PyStr
  | 0, s => s
  | fuel+1, s =>
    match s with
    | [] => []
    | c :: rest =>
      if isWordChar c then
        let w := s.takeWhile isWordChar
        let afterW := s.dropWhile isWordChar
        let ws := afterW.takeWhile isPySpace
        match afterW.dropWhile isPySpace with
        | ':' :: rest2 => '"' :: (w ++ '"' :: (ws ++ ':' :: quoteBareKeysAux fuel rest2))
        | _ => c :: quoteBareKeysAux fuel rest
      else c :: quoteBareKeysAux fuel rest

def isCloser (c : Char) : Bool := c == ',' || c == '}' || c == ']'

def isExcludedValueStart (c : Char) : Bool :=
  c == '"' || c == '{' || c == '[' || isDigit c || c == '-'

/-- Lazy tail of the bare-value group of `fix_common_json_issues`: consume
characters until the remainder matches `\s*[,}\]]`; returns the group
tail, the `(\s*[,}\]])` group, and the rest after the closer. -/
def bareValueLazy : Nat → PyStr → Option (PyStr × PyStr × PyStr)
  | 0, _ => none
  | fuel+1, s =>
    let ws := s.takeWhile isPySpace
    match s.dropWhile isPySpace with
    | c :: rest =>
      if isCloser c then some ([], ws ++ [c], rest)
      else
        match s with
        | [] => none
        | d :: rest2 =>
          match bareValueLazy fuel rest2 with
          | some (g, g2, r) => some (d :: g, g2, r)
          | none => none
    | [] => none

/-- `re.sub(r':\s*([^"{\[\d\-][^,}\]]*?)(\s*[,}\]])', r': "\1"\2', s)`:
quote a bare scalar value after a colon.  The greedy `\s*` backtracks one
whitespace character when the character after the run is excluded by the
first-character class (whitespace itself is not excluded), so the group
then starts at the run's last whitespace character. -/
def quoteBareValuesAux : Nat → PyStr → PyStr
  | 0, s => s
  | fuel+1, s =>
    match s with
    | [] => []
    | ':' :: rest =>
      let ws := rest.takeWhile isPySpace
      let attempt : Option (PyStr × PyStr × PyStr) :=
        match rest.dropWhile isPySpace with
        | c :: rest2 =>
          if isExcludedValueStart c then
            match ws.getLast? with
            | some w =>
              (bareValueLazy (rest2.length + 2) (c :: rest2)).map
                (fun t => (w :: c :: t.1, t.2.1, t.2.2))
            | none => none
          else
            (bareValueLazy (rest2.length + 1) rest2).map
              (fun t => (c :: t.1, t.2.1, t.2.2))
        | [] => none
      match attempt with
      | some (g1, g2, r) =>
        ':' :: ' ' :: '"' :: (g1 ++ '"' :: (g2 ++ quoteBareValuesAux fuel r))
      | none => ':' :: quoteBareValuesAux fuel rest
    | c :: rest => c :: quoteBareValuesAux fuel rest

/-- Model of `fix_common_json_issues` (src/ai_service.py lines 531-549). -/
def fix_common_json_issues (json_str : PyStr) : PyStr :=
  let s1 := removeTrailingCommasAux (json_str.length + 1) json_str
  let s2 := escapeNewlineBeforeQuoteAux (s1.length + 1) s1 false
  let s3 := quoteBareKeysAux (s2.length + 1) s2
  quoteBareValuesAux (s3.length + 1) s3

/-! ## ResponseNormalizer: content extraction helpers -/

/-- First occurrence of a literal token: the characters before it and the
input after it. -/
def splitAtToken : Nat → PyStr → PyStr → Option (PyStr × PyStr)
  | 0, _, _ => none
  | fuel+1, tok, s =>
    if tok.isPrefixOf s then some ([], s.drop tok.length)
    else
      match s with
      | [] => none
      | c :: rest =>
        match splitAtToken fuel tok rest with
        | some (pre, post) => some (c :: pre, post)
        | none => none

/-- `re.findall(r'```(\w+)?\s*(.*?)```', text, re.DOTALL)`: the list of
(language tag, body) pairs in order; the tag is the word run after the
opening fence (empty when absent) and the body is the lazily matched text
up to the closing fence. -/
def findCodeBlocks : Nat → PyStr → List (PyStr × PyStr)
  | 0, _ => []
  | fuel+1, s =>
    match s with
    | [] => []
    | _ :: rest =>
      if ("```").data.isPrefixOf s then
        let afterTicks := s.drop 3
        let lang := afterTicks.takeWhile isWordChar
        let afterLang := afterTicks.dropWhile isWordChar
        let body0 := afterLang.dropWhile isPySpace
        match splitAtToken (body0.length + 1) ("```").data body0 with
        | some (body, rem) => (lang, body) :: findCodeBlocks fuel rem
        | none => findCodeBlocks fuel rest
      else findCodeBlocks fuel rest

/-- `re.sub(code_pattern, '', text, count=1)`: remove the first fenced
code block, if any. -/
def removeFirstCodeBlock : Nat → PyStr → PyStr
  | 0, s => s
  | fuel+1, s =>
    match s with
    | [] => []
    | c :: rest =>
      if ("```").data.isPrefixOf s then
        let afterTicks := s.drop 3
        let afterLang := afterTicks.dropWhile isWordChar
        let body0 := afterLang.dropWhile isPySpace
        match splitAtToken (body0.length + 1) ("```").data body0 with
        | some (_, rem) => rem
        | none => c :: removeFirstCodeBlock fuel rest
      else c :: removeFirstCodeBlock fuel rest

/-- Characters allowed in the URL tail class `[^\s<>"]`. -/
def isUrlChar (c : Char) : Bool := !(isPySpace c || c == '<' || c == '>' || c == '"')

/-- One attempt of the URL regex `https?://[^\s<>"]+|www\.[^\s<>"]+` at the
head of the input (the `www.` alternative participates only in
`enhanced_content_extraction`). -/
def matchUrlAt (withWww : Bool) (s : PyStr) : Option (PyStr × PyStr) :=
  let tryScheme : Option (PyStr × PyStr) :=
    if ("https://").data.isPrefixOf s then some (("https://").data, s.drop 8)
    else if ("http://").data.isPrefixOf s then some (("http://").data, s.drop 7)
    else none
  match tryScheme with
  | some (pre, rest) =>
    let run := rest.takeWhile isUrlChar
    if run = [] then none else some (pre ++ run, rest.dropWhile isUrlChar)
  | none =>
    if withWww && ("www.").data.isPrefixOf s then
      let rest := s.drop 4
      let run := rest.takeWhile isUrlChar
      if run = [] then none else some (("www.").data ++ run, rest.dropWhile isUrlChar)
    else none

/-- `re.findall` of the URL regex: leftmost, non-overlapping. -/
def findUrls (withWww : Bool) : Nat → PyStr → List PyStr
  | 0, _ => []
  | fuel+1, s =>
    match s with
    | [] => []
    | _ :: rest =>
      match matchUrlAt withWww s with
      | some (u, rem) => u :: findUrls withWww fuel rem
      | none => findUrls withWww fuel rest

/-- `re.sub(r'\n\s*\n', '\n\n', text)`: each whitespace run that starts
with a newline and contains a later newline is replaced, up to its last
newline, by exactly two newlines (the greedy `\s*` backtracks to the last
newline of the run); the scan continues after the replaced region. -/
def collapseBlankLinesAux : Nat → PyStr → PyStr
  | 0, s => s
  | fuel+1, s =>
    match s with
    | [] => []
    | '\n' :: rest =>
      let run := rest.takeWhile isPySpace
      match lastIdxAfter '\n' run with
      | some k => '\n' :: '\n' :: collapseBlankLinesAux fuel (rest.drop k)
      | none => '\n' :: collapseBlankLinesAux fuel rest
    | c :: rest => c :: collapseBlankLinesAux fuel rest

/-- Python `text.split(chr(10))`. -/
def splitOnNewline : PyStr → List PyStr
  | [] => [[]]
  | c :: rest =>
    if c = '\n' then [] :: splitOnNewline rest
    else
      match splitOnNewline rest with
      | line :: more => (c :: line) :: more
      | [] => [[c]]

/-- Python `text.split()`: the list of maximal non-whitespace runs. -/
def pySplitWs : Nat → PyStr → List PyStr
  | 0, _ => []
  | fuel+1, s =>
    match s.dropWhile isPySpace with
    | [] => []
    | s1 =>
      s1.takeWhile (fun c => !isPySpace c) ::
        pySplitWs fuel (s1.dropWhile (fun c => !isPySpace c))

/-- First index of a substring (Python `text.find(sub)`). -/
def findSub : Nat → PyStr → PyStr → Option Nat
  | 0, _, _ => none
  | fuel+1, pat, s =>
    if pat.isPrefixOf s then some 0
    else
      match s with
      | [] => none
      | _ :: rest => (findSub fuel pat rest).map (· + 1)

/-- Python `s.rstrip(chars)`. -/
def rstripSet (cs : List Char) (s : PyStr) : PyStr :=
  (s.reverse.dropWhile (fun c => cs.contains c)).reverse

/-- The `re.search(r'https?://(?:www\.)?([^/]+)', url)` group at the head
of the input, with the optional `www.` backtracked away when the host part
would otherwise be empty. -/
def urlDomainAt (s : PyStr) : Option PyStr :=
  let afterScheme : Option PyStr :=
    if ("https://").data.isPrefixOf s then some (s.drop 8)
    else if ("http://").data.isPrefixOf s then some (s.drop 7)
    else none
  match afterScheme with
  | some r =>
    let r2 := if ("www.").data.isPrefixOf r then r.drop 4 else r
    let dom := r2.takeWhile (fun c => c != '/')
    if dom ≠ [] then some dom
    else
      let dom2 := r.takeWhile (fun c => c != '/')
      if dom2 ≠ [] then some dom2 else none
  | none => none

/-- `re.search` of the domain regex anywhere in the string. -/
def urlDomain : PyStr → Option PyStr
  | [] => none
  | s@(_ :: rest) =>
    match urlDomainAt s with
    | some d => some d
    | none => urlDomain rest

/-- Model of `extract_title_from_context` (src/ai_service.py lines
698-715): the last five words of the 100 characters before the URL's first
occurrence, right-stripped of `:-([`, else the URL's domain, else the
fixed "Reference Link". -/
def extract_title_from_context (url text : PyStr) : PyStr :=
  let titled : Option PyStr :=
    match findSub (text.length + 1) url text with
    | some idx =>
      let context := pyStrip ((text.take idx).drop (idx - 100))
      let context_words := pySplitWs (context.length + 1) context
      let lastFive := context_words.drop (context_words.length - 5)
      if lastFive ≠ [] then
        some (rstripSet [':', '-', '(', '['] (List.intercalate [' '] lastFive))
      else none
    | none => none
  match titled with
  | some t => t
  | none =>
    match urlDomain url with
    | some d => d
    | none => ("Reference Link").data

/-! ## ResponseNormalizer: the normalization pipeline -/

def kResponse : PyStr := ("response").data
def kCodeBlocks : PyStr := ("code_blocks").data
def kLinks : PyStr := ("links").data
def kSuggested : PyStr := ("suggested_questions").data
def kLanguage : PyStr := ("language").data
def kCode : PyStr := ("code").data
def kDescription : PyStr := ("description").data
def kUrl : PyStr := ("url").data
def kTitle : PyStr := ("title").data
def kContent : PyStr := ("content").data
def kText : PyStr := ("text").data
def kMessage : PyStr := ("message").data
def kAnswer : PyStr := ("answer").data

def isList : Json → Bool
  | .arr _ => true
  | _ => false

def isStrVal : Json → Bool
  | .str _ => true
  | _ => false

/-- Python `value.get(k, default)` on a possibly-non-dict value wrapped in
`Json` (only applied to dicts below). -/
def jsonGetKey (j : Json) (k : PyStr) : Json :=
  match j with
  | .obj d => dictGetD d k .null
  | _ => .null

/-- The fixed 6-question default set of `create_fallback_response`. -/
def fallbackQuestions : List Json :=
  [.str ("Can you explain this step by step?").data,
   .str ("How do I implement this solution?").data,
   .str ("What are the best practices here?").data,
   .str ("Are there any alternatives I should consider?").data,
   .str ("What potential issues should I watch for?").data,
   .str ("How can I optimize this approach?").data]

/-- Model of `create_fallback_response` (src/ai_service.py lines 677-696).
`clean_text = str(text).strip() if text else ""` is Python truthiness of
the argument; a short result is replaced by the fixed placeholder, and the
response is capped at 3000 characters. -/
def create_fallback_response (text : Json) : Json :=
  let ct0 := if truthy text then pyStrip (pyStr text) else []
  let clean_text := if ct0.length < 10 then
      ("AI response was received but could not be processed properly. Please try asking your question again.").data
    else ct0
  .obj [(kResponse, .str (clean_text.take 3000)),
        (kCodeBlocks, .arr []),
        (kLinks, .arr []),
        (kSuggested, .arr fallbackQuestions)]

/-- The `content`/`text`/`message`/`answer` backfill chain for a missing
`response` key (lines 608-613): the first truthy value wins (`x or y`
keeps `x` when truthy; the `.get` defaults are the falsy empty string),
else `str(data)`. -/
def backfillContent (d : List (PyStr × Json)) : Json :=
  let c1 := dictGetD d kContent (.str [])
  if truthy c1 then c1 else
  let c2 := dictGetD d kText (.str [])
  if truthy c2 then c2 else
  let c3 := dictGetD d kMessage (.str [])
  if truthy c3 then c3 else
  let c4 := dictGetD d kAnswer (.str [])
  if truthy c4 then c4 else .str (pyStr (.obj d))

/-- The backfill search for a present-but-short `response` (lines
614-617): the first value in iteration order that is a string of stripped
length > 10. -/
def findLongString : List (PyStr × Json) → Option Json
  | [] => none
  | (_, v) :: rest =>
    match v with
    | .str s => if 10 < (pyStrip s).length then some (.str s) else findLongString rest
    | _ => findLongString rest

/-- One iteration of the `for field in required_fields` loop of
`validate_and_fix_json_structure` (lines 605-621). -/
def fixField (d : List (PyStr × Json)) (field : PyStr) : List (PyStr × Json) :=
  if !hasKey d field then
    if field = kResponse then dictSet d field (backfillContent d)
    else dictSet d field (.arr [])
  else if field = kResponse &&
      (!truthy (dictGetD d field .null) ||
        decide ((pyStrip (pyStr (dictGetD d field .null))).length < 10)) then
    match findLongString d with
    | some v => dictSet d field v
    | none => d
  else if field ≠ kResponse && !isList (dictGetD d field .null) then
    dictSet d field (.arr [])
  else d

/-- The per-entry coercion of `code_blocks` (lines 630-639): non-dict
entries are dropped; dict entries are rebuilt with string-coerced
`language` (default "text"), `code` (default "") and `description`
(default "Code block"). -/
def coerceCodeBlock : Json → Option Json
  | .obj b =>
      some (.obj
        [(kLanguage, .str (pyStr (dictGetD b kLanguage (.str ("text").data)))),
         (kCode, .str (pyStr (dictGetD b kCode (.str [])))),
         (kDescription, .str (pyStr (dictGetD b kDescription (.str ("Code block").data))))])
  | _ => none

/-- The per-entry coercion of `links` (lines 641-650): entries that are
not dicts or lack a `url` key are dropped; kept entries are rebuilt with
string-coerced `url`, `title` (default "Link"), `description`
(default ""). -/
def coerceLink : Json → Option Json
  | .obj l =>
      if hasKey l kUrl then
        some (.obj
          [(kUrl, .str (pyStr (dictGetD l kUrl .null))),
           (kTitle, .str (pyStr (dictGetD l kTitle (.str ("Link").data)))),
           (kDescription, .str (pyStr (dictGetD l kDescription (.str []))))])
      else none
  | _ => none

/-- The per-entry filter of `suggested_questions` (lines 652-656): keep
strings whose strip is non-empty, stripped. -/
def coerceQuestion : Json → Option Json
  | .str q => if pyStrip q ≠ [] then some (.str (pyStrip q)) else none
  | _ => none

/-- The fixed default set substituted by `validate_and_fix_json_structure`
when no valid suggested question survives. -/
def validateDefaultQuestions : List Json :=
  [.str ("How do I understand this better?").data,
   .str ("What are the practical next steps?").data,
   .str ("Can you explain the key concepts?").data,
   .str ("How do I troubleshoot issues?").data,
   .str ("What are the best practices here?").data,
   .str ("How can I optimize my approach?").data]

/-- The fixed placeholder substituted for an empty or too-short response
(line 626). -/
def validatePlaceholder : PyStr :=
  ("AI response was received but the content could not be properly extracted. Please try asking your question again.").data

/-- The response-repair slice of `validate_and_fix_json_structure` (lines
623-627): coerce a non-string response to `str`, then substitute the fixed
placeholder when the result is empty or shorter than 10 after stripping. -/
def validateResponseStage (d4 : List (PyStr × Json)) : List (PyStr × Json) :=
  let r0 := dictGetD d4 kResponse .null
  let d5 := if isStrVal r0 then d4 else dictSet d4 kResponse (.str (pyStr r0))
  let r1 := pyStr (dictGetD d5 kResponse .null)
  if r1 = [] ∨ (pyStrip r1).length < 10 then
    dictSet d5 kResponse (.str validatePlaceholder)
  else d5

/-- `valid_code_blocks` from the current `code_blocks` value (lines
630-639). -/
def repairedBlocks (v : Json) : List Json :=
  match v with
  | .arr bs => bs.filterMap coerceCodeBlock
  | _ => []

/-- `valid_links` from the current `links` value (lines 641-650). -/
def repairedLinks (v : Json) : List Json :=
  match v with
  | .arr ls => ls.filterMap coerceLink
  | _ => []

/-- `valid_questions[:6]` from the current `suggested_questions` value,
with the fixed default set substituted when the filter leaves nothing
(lines 652-670). -/
def repairedQuestions (v : Json) : List Json :=
  let qs := match v with
    | .arr l => l.filterMap coerceQuestion
    | _ => []
  let qs2 := if qs.isEmpty then validateDefaultQuestions else qs
  qs2.take 6

/-- The array-repair slice of `validate_and_fix_json_structure` (lines
629-672): rebuild `code_blocks` and `links` entry-wise; filter, default
and cap `suggested_questions`. -/
def validateArraysStage (d6 : List (PyStr × Json)) : List (PyStr × Json) :=
  let d7 := dictSet d6 kCodeBlocks (.arr (repairedBlocks (dictGetD d6 kCodeBlocks (.arr []))))
  let d8 := dictSet d7 kLinks (.arr (repairedLinks (dictGetD d7 kLinks (.arr []))))
  dictSet d8 kSuggested (.arr (repairedQuestions (dictGetD d8 kSuggested (.arr []))))

/-- Model of `validate_and_fix_json_structure` (src/ai_service.py lines
600-675): non-dicts fall back via `create_fallback_response(str(data))`;
the four required fields are repaired in order by `fixField`; `response`
is coerced to a string and replaced by the fixed placeholder when empty or
shorter than 10 after stripping; the three array fields are rebuilt
entry-wise and `suggested_questions` falls back to a fixed default set and
is capped at 6.  Mutation of the Python dict is modelled by in-place
`dictSet` updates, split into the two named stages above. -/
def validate_and_fix_json_structure (data : Json) : Json :=
  match data with
  | .obj d0 =>
    .obj (validateArraysStage (validateResponseStage
      (fixField (fixField (fixField (fixField d0 kResponse) kCodeBlocks) kLinks) kSuggested)))
  | v => create_fallback_response (.str (pyStr v))

/-- Python `(chr(10)).join(lines)`. -/
def joinWithNewline : List PyStr → PyStr
  | [] => []
  | [l] => l
  | l :: rest => l ++ '\n' :: joinWithNewline rest

/-- The fixed suggested-question set of `enhanced_content_extraction`. -/
def enhancedQuestions : List Json :=
  [.str ("Can you explain this in more detail?").data,
   .str ("What should I do next?").data,
   .str ("Are there any potential issues?").data,
   .str ("How can I improve this further?").data,
   .str ("What are the best practices here?").data,
   .str ("Can you provide alternatives?").data]

/-- The code-block accumulation loop of `enhanced_content_extraction`
(lines 457-469): for each regex match in order, a block whose stripped
body is non-empty is appended (the language tag defaults to "text") and
one leading fenced block is removed from the running prose text. -/
def enhancedBlocksLoop : List (PyStr × PyStr) → PyStr → (List Json × PyStr)
  | [], response_text => ([], response_text)
  | (lang, code0) :: rest, response_text =>
    let language := if lang = [] then ("text").data else lang
    let code := pyStrip code0
    if code ≠ [] then
      let rt2 := removeFirstCodeBlock (response_text.length + 1) response_text
      let tail := enhancedBlocksLoop rest rt2
      (.obj [(kLanguage, .str language), (kCode, .str code),
             (kDescription, .str (("Code block in ").data ++ language))] :: tail.1,
       tail.2)
    else enhancedBlocksLoop rest response_text

/-- The link accumulation loop of `enhanced_content_extraction` (lines
471-480): URLs are deduplicated against the urls already collected. -/
def enhancedLinksLoop (text : PyStr) : List PyStr → List PyStr → List Json
  | [], _ => []
  | url :: rest, seen =>
    if url ∈ seen then enhancedLinksLoop text rest seen
    else
      .obj [(kUrl, .str url),
            (kTitle, .str (extract_title_from_context url text)),
            (kDescription, .str ("Extracted URL from response").data)] ::
        enhancedLinksLoop text rest (url :: seen)

/-- Model of `enhanced_content_extraction` (src/ai_service.py lines
443-503): code blocks and URLs are pulled out of the text, repeated blank
lines are collapsed, a too-short remainder is replaced by the first ten
substantial lines of the original text, and an empty remainder by a canned
sentence; the suggested questions are a fixed set of six.  (The Lean model
is total, so the source's `except: return None` branch is unreachable.) -/
def enhanced_content_extraction (text : PyStr) : Json :=
  let code_matches := findCodeBlocks (text.length + 1) text
  let bl := enhancedBlocksLoop code_matches text
  let url_matches := findUrls true (text.length + 1) text
  let links := enhancedLinksLoop text url_matches []
  let rt1 := pyStrip (collapseBlankLinesAux (bl.2.length + 1) bl.2)
  let rt2 :=
    if rt1 = [] ∨ rt1.length < 20 then
      let substantial := ((splitOnNewline text).map pyStrip).filter
        (fun l => decide (10 < l.length))
      if substantial ≠ [] then joinWithNewline (substantial.take 10)
      else rt1
    else rt1
  let response := if rt2 ≠ [] then rt2
    else ("AI response received but content could not be extracted properly.").data
  .obj [(kResponse, .str response),
        (kCodeBlocks, .arr bl.1),
        (kLinks, .arr links),
        (kSuggested, .arr enhancedQuestions)]

/-- The fixed suggested-question set of `manual_field_extraction`. -/
def manualQuestions : List Json :=
  [.str ("Can you walk me through this step by step?").data,
   .str ("How do I troubleshoot any issues here?").data,
   .str ("What are the best practices for this?").data,
   .str ("How can I improve my workflow?").data,
   .str ("What should I learn more about?").data,
   .str ("Are there better tools for this task?").data]

/-- Model of `manual_field_extraction` (src/ai_service.py lines 551-598):
the raw text becomes the response (truncated to 3000 characters plus an
ellipsis when longer); code blocks (kept even when empty) and plain
`http(s)` URLs are extracted best-effort. -/
def manual_field_extraction (text : PyStr) : Json :=
  let code_blocks := (findCodeBlocks (text.length + 1) text).map
    (fun p => Json.obj
      [(kLanguage, .str (if p.1 = [] then ("text").data else p.1)),
       (kCode, .str (pyStrip p.2)),
       (kDescription, .str ("Extracted code block").data)])
  let links := (findUrls false (text.length + 1) text).map
    (fun u => Json.obj
      [(kUrl, .str u),
       (kTitle, .str ("Extracted Link").data),
       (kDescription, .str ("URL found in response").data)])
  let response := if 3000 < text.length then text.take 3000 ++ ("...").data else text
  .obj [(kResponse, .str response),
        (kCodeBlocks, .arr code_blocks),
        (kLinks, .arr links),
        (kSuggested, .arr manualQuestions)]

/-- The acceptance gate after direct parsing (line 372): `result and
result.get("response") and len(str(result["response"]).strip()) > 10`. -/
def resultGate (result : Json) : Bool :=
  truthy result && truthy (jsonGetKey result kResponse) &&
    decide (10 < (pyStrip (pyStr (jsonGetKey result kResponse))).length)

/-- The acceptance gate inside the candidate loop (lines 409, 421):
`isinstance(parsed_json, dict) and parsed_json.get("response") and
len(str(parsed_json["response"]).strip()) > 10`. -/
def candidateGate (parsed : Json) : Bool :=
  match parsed with
  | .obj d => truthy (dictGetD d kResponse .null) &&
      decide (10 < (pyStrip (pyStr (dictGetD d kResponse .null))).length)
  | _ => false

/-- The terminal fallbacks of `extract_json_from_response` (lines
429-436): content extraction wins when its `response` is truthy, else
manual extraction.  (In this total model `enhanced_content_extraction`
never raises, so the gate's None-check cannot fail;
`manual_field_extraction` is kept for fidelity to the source's control
flow.) -/
def extractionFallback (cleaned : PyStr) : Json :=
  let extracted := enhanced_content_extraction cleaned
  if truthy extracted && truthy (jsonGetKey extracted kResponse) then extracted
  else manual_field_extraction cleaned

/-- The candidate loop of `extract_json_from_response` (lines 401-427):
each candidate is cleaned and parsed; on a parse error the original
candidate is repaired with `fix_common_json_issues` and parsed again; the
first candidate that parses to a dict whose `response` strips to length
> 10 is validated and returned; otherwise the extraction fallbacks run. -/
def candidateLoop (cleaned : PyStr) : List PyStr → Json
  | [] => extractionFallback cleaned
  | cand :: rest =>
    match json_loads (clean_json_string cand) with
    | some parsed =>
      if candidateGate parsed then validate_and_fix_json_structure parsed
      else candidateLoop cleaned rest
    | none =>
      match json_loads (fix_common_json_issues cand) with
      | some parsed =>
        if candidateGate parsed then validate_and_fix_json_structure parsed
        else candidateLoop cleaned rest
      | none => candidateLoop cleaned rest

/-- Model of `extract_json_from_response` (src/ai_service.py lines
349-439), the `Normalize` operation.  Dict inputs are validated directly;
non-string scalars are first coerced with `str`; a stripped input shorter
than 10 characters falls back immediately; otherwise the strategy chain
runs: direct parse, pattern candidates, content extraction, manual
extraction.  In this total embedding no branch can raise, so the source's
final `except` fallback is unreachable. -/
def normalizeText (rt : PyStr) : Json :=
  let cleaned := pyStrip rt
  if cleaned.length < 10 then
    create_fallback_response (.str ("Response was too short or empty").data)
  else
    match json_loads cleaned with
    | some parsed =>
      let result := validate_and_fix_json_structure parsed
      if resultGate result then result
      else candidateLoop cleaned (collectCandidates cleaned)
    | none => candidateLoop cleaned (collectCandidates cleaned)

def extract_json_from_response (response_text : Json) : Json :=
  match response_text with
  | .obj d => validate_and_fix_json_structure (.obj d)
  | other => normalizeText (pyStr other)

/-! ## Lemmas on stripping and on the dict operations -/

theorem dropWhile_head?_false (p : Char → Bool) (l : PyStr) (c : Char)
    (h : (l.dropWhile p).head? = some c) : p c = false := by
  induction l with
  | nil => rw [List.dropWhile_nil] at h; simp at h
  | cons a rest ih =>
    rw [List.dropWhile_cons] at h
    by_cases hp : p a = true
    · exact ih (by simpa [hp] using h)
    · rw [if_neg hp] at h
      simp only [List.head?_cons, Option.some.injEq] at h
      subst h
      simpa using hp

theorem dropWhile_eq_self_of_head (p : Char → Bool) (l : PyStr)
    (h : ∀ c, l.head? = some c → p c = false) : l.dropWhile p = l := by
  cases l with
  | nil => rfl
  | cons a rest => rw [List.dropWhile_cons]; simp [h a rfl]

/-- The first character of a stripped string is not whitespace. -/
theorem pyStrip_head?_not_space (l : PyStr) (c : Char)
    (h : (pyStrip l).head? = some c) : isPySpace c = false := by
  unfold pyStrip at h
  rw [List.head?_reverse] at h
  set m := l.dropWhile isPySpace with hm
  have hne : m.reverse.dropWhile isPySpace ≠ [] := by
    intro h0; rw [h0] at h; simp at h
  obtain ⟨w, hw⟩ := List.dropWhile_suffix (l := m.reverse) isPySpace
  have hlast : (m.reverse.dropWhile isPySpace).getLast? = m.reverse.getLast? := by
    conv_rhs => rw [← hw]
    rw [List.getLast?_append]
    cases h0 : (m.reverse.dropWhile isPySpace).getLast? with
    | none => exact absurd (List.getLast?_eq_none_iff.mp h0) hne
    | some d => rfl
  rw [hlast, List.getLast?_reverse, hm] at h
  exact dropWhile_head?_false isPySpace l c h

/-- The last character of a stripped string is not whitespace. -/
theorem pyStrip_getLast?_not_space (l : PyStr) (c : Char)
    (h : (pyStrip l).getLast? = some c) : isPySpace c = false := by
  unfold pyStrip at h
  rw [List.getLast?_reverse] at h
  exact dropWhile_head?_false isPySpace _ c h

/-- Stripping a string with no leading and no trailing whitespace leaves
it unchanged. -/
theorem pyStrip_eq_self (l : PyStr)
    (hh : ∀ c, l.head? = some c → isPySpace c = false)
    (hl : ∀ c, l.getLast? = some c → isPySpace c = false) : pyStrip l = l := by
  unfold pyStrip
  rw [dropWhile_eq_self_of_head _ _ hh,
    dropWhile_eq_self_of_head _ _ (fun c hc => hl c ((List.head?_reverse l) ▸ hc)),
    List.reverse_reverse]

/-- Python `strip` is idempotent. -/
theorem pyStrip_idem (l : PyStr) : pyStrip (pyStrip l) = pyStrip l :=
  pyStrip_eq_self _ (pyStrip_head?_not_space l) (pyStrip_getLast?_not_space l)

/-- A string that strips to nothing is all whitespace. -/
theorem pyStrip_eq_nil_all_space (l : PyStr) (h : pyStrip l = []) :
    ∀ c ∈ l, isPySpace c = true := by
  unfold pyStrip at h
  rw [List.reverse_eq_nil_iff, List.dropWhile_eq_nil_iff] at h
  intro c hc
  have hsplit : c ∈ l.takeWhile isPySpace ++ l.dropWhile isPySpace := by
    rw [List.takeWhile_append_dropWhile]; exact hc
  rcases List.mem_append.mp hsplit with h1 | h2
  · exact List.mem_takeWhile_imp h1
  · exact h c (List.mem_reverse.mpr h2)

/-- A string containing a non-whitespace character does not strip to
nothing. -/
theorem pyStrip_ne_nil_of_mem (l : PyStr) (c : Char) (hc : c ∈ l)
    (hcs : isPySpace c = false) : pyStrip l ≠ [] := by
  intro h
  have h2 := pyStrip_eq_nil_all_space l h c hc
  rw [hcs] at h2
  cases h2

theorem head?_mem_self (l : PyStr) (c : Char) (h : l.head? = some c) : c ∈ l := by
  cases l with
  | nil => simp at h
  | cons a rest =>
    simp only [List.head?_cons, Option.some.injEq] at h
    subst h; exact List.mem_cons_self a rest

theorem head?_take_pos (l : PyStr) (n : Nat) (hn : 0 < n) :
    (l.take n).head? = l.head? := by
  cases l with
  | nil => simp
  | cons a rest =>
    cases n with
    | zero => omega
    | succ m => simp [List.take_succ_cons]

/-- A non-empty already-stripped string still strips to something after
truncation to a positive length. -/
theorem pyStrip_take_ne_nil (x : PyStr) (n : Nat) (hn : 0 < n)
    (hne : pyStrip x ≠ []) : pyStrip ((pyStrip x).take n) ≠ [] := by
  obtain ⟨c, hc⟩ : ∃ c, (pyStrip x).head? = some c := by
    cases h : (pyStrip x).head? with
    | none => exact absurd (List.head?_eq_none_iff.mp h) hne
    | some d => exact ⟨d, rfl⟩
  have hh : ((pyStrip x).take n).head? = some c := by
    rw [head?_take_pos _ n hn]; exact hc
  have hmem : c ∈ (pyStrip x).take n := head?_mem_self _ c hh
  exact pyStrip_ne_nil_of_mem _ c hmem (pyStrip_head?_not_space x c hc)

theorem dictGet_dictSet_self (d : List (PyStr × Json)) (k : PyStr) (v : Json) :
    dictGet (dictSet d k v) k = some v := by
  induction d with
  | nil => simp [dictSet, dictGet]
  | cons p rest ih =>
    obtain ⟨k2, w⟩ := p
    by_cases h : k2 = k
    · subst h; simp [dictSet, dictGet]
    · simp [dictSet, dictGet, h, ih]

theorem dictGet_dictSet_ne (d : List (PyStr × Json)) (k k2 : PyStr) (v : Json)
    (h : k ≠ k2) : dictGet (dictSet d k v) k2 = dictGet d k2 := by
  induction d with
  | nil => simp [dictSet, dictGet, h]
  | cons p rest ih =>
    obtain ⟨k3, w⟩ := p
    by_cases h3 : k3 = k
    · subst h3; simp [dictSet, dictGet, h]
    · by_cases h4 : k3 = k2
      · subst h4; simp [dictSet, dictGet, h3]
      · simp [dictSet, dictGet, h3, h4, ih]

theorem dictSet_self_of_get (d : List (PyStr × Json)) (k : PyStr) (v : Json)
    (h : dictGet d k = some v) : dictSet d k v = d := by
  induction d with
  | nil => simp [dictGet] at h
  | cons p rest ih =>
    obtain ⟨k2, w⟩ := p
    by_cases h2 : k2 = k
    · subst h2
      have hw : w = v := by simpa [dictGet] using h
      subst hw
      simp [dictSet]
    · simp only [dictGet, if_neg h2] at h
      simp [dictSet, h2, ih h]

/-! ## Output-shape lemmas for the normalizer -/

/-- A valid suggested-question entry: a string, non-empty after trimming. -/
def questionEntryOK : Json → Bool
  | .str t => !(pyStrip t).isEmpty
  | _ => false

/-- The output shape of the (amended) totality claim: the four required
keys are present, with `response` a string, `code_blocks` and `links`
sequences, and `suggested_questions` a sequence of at most 6 entries, each
a string that is non-empty after trimming. -/
def shapeOK (j : Json) : Prop :=
  (∃ r, jsonGetKey j kResponse = .str r) ∧
  (∃ bs, jsonGetKey j kCodeBlocks = .arr bs) ∧
  (∃ ls, jsonGetKey j kLinks = .arr ls) ∧
  (∃ qs, jsonGetKey j kSuggested = .arr qs ∧ qs.length ≤ 6 ∧
    qs.all questionEntryOK = true)

theorem shapeOK_mk4 (r : PyStr) (bs ls qs : List Json)
    (h6 : qs.length ≤ 6) (hq : qs.all questionEntryOK = true) :
    shapeOK (.obj [(kResponse, .str r), (kCodeBlocks, .arr bs), (kLinks, .arr ls),
                   (kSuggested, .arr qs)]) :=
  ⟨⟨r, rfl⟩, ⟨bs, rfl⟩, ⟨ls, rfl⟩, ⟨qs, rfl, h6, hq⟩⟩

theorem shapeOK_create_fallback (v : Json) : shapeOK (create_fallback_response v) :=
  shapeOK_mk4 _ _ _ _ (by decide) (by decide)

theorem shapeOK_enhanced (t : PyStr) : shapeOK (enhanced_content_extraction t) :=
  shapeOK_mk4 _ _ _ _ (by decide) (by decide)

theorem shapeOK_manual (t : PyStr) : shapeOK (manual_field_extraction t) :=
  shapeOK_mk4 _ _ _ _ (by decide) (by decide)

theorem coerceQuestion_ok (a x : Json) (ha : coerceQuestion a = some x) :
    questionEntryOK x = true := by
  cases a with
  | str q =>
    simp only [coerceQuestion] at ha
    by_cases hq : pyStrip q ≠ []
    · rw [if_pos hq] at ha
      cases ha
      simp only [questionEntryOK, pyStrip_idem]
      cases hpq : pyStrip q with
      | nil => exact absurd hpq hq
      | cons c t => rfl
    · rw [if_neg hq] at ha; cases ha
  | null => simp [coerceQuestion] at ha
  | bool b => simp [coerceQuestion] at ha
  | num q => simp [coerceQuestion] at ha
  | arr l => simp [coerceQuestion] at ha
  | obj d => simp [coerceQuestion] at ha

theorem filterMap_coerceQuestion_all (l : List Json) :
    (l.filterMap coerceQuestion).all questionEntryOK = true := by
  rw [List.all_eq_true]
  intro x hx
  rw [List.mem_filterMap] at hx
  obtain ⟨a, _, ha⟩ := hx
  exact coerceQuestion_ok a x ha

theorem all_take_of_all (p : Json → Bool) (l : List Json) (n : Nat)
    (h : l.all p = true) : (l.take n).all p = true := by
  rw [List.all_eq_true] at *
  exact fun x hx => h x (List.mem_of_mem_take hx)

theorem jsonGetKey_obj (D : List (PyStr × Json)) (k : PyStr) :
    jsonGetKey (.obj D) k = dictGetD D k .null := rfl

theorem repairedQuestions_ok (v : Json) :
    (repairedQuestions v).length ≤ 6 ∧ (repairedQuestions v).all questionEntryOK = true := by
  refine ⟨List.length_take_le 6 _, ?_⟩
  simp only [repairedQuestions]
  apply all_take_of_all
  cases v with
  | arr l =>
    by_cases he : (l.filterMap coerceQuestion).isEmpty = true
    · rw [if_pos he]; decide
    · rw [if_neg he]; exact filterMap_coerceQuestion_all l
  | null => decide
  | bool b => cases b <;> decide
  | num q => simp only [List.isEmpty_nil, if_true]; decide
  | str s => simp only [List.isEmpty_nil, if_true]; decide
  | obj o => simp only [List.isEmpty_nil, if_true]; decide

theorem validateArraysStage_get (d : List (PyStr × Json)) :
    dictGet (validateArraysStage d) kResponse = dictGet d kResponse ∧
    (∃ bs, dictGet (validateArraysStage d) kCodeBlocks = some (.arr bs)) ∧
    (∃ ls, dictGet (validateArraysStage d) kLinks = some (.arr ls)) ∧
    (∃ qs, dictGet (validateArraysStage d) kSuggested = some (.arr qs) ∧
      qs.length ≤ 6 ∧ qs.all questionEntryOK = true) := by
  simp only [validateArraysStage]
  refine ⟨?_, ?_, ?_, ?_⟩
  · rw [dictGet_dictSet_ne _ _ _ _ (by decide), dictGet_dictSet_ne _ _ _ _ (by decide),
      dictGet_dictSet_ne _ _ _ _ (by decide)]
  · rw [dictGet_dictSet_ne _ _ _ _ (by decide), dictGet_dictSet_ne _ _ _ _ (by decide),
      dictGet_dictSet_self]
    exact ⟨_, rfl⟩
  · rw [dictGet_dictSet_ne _ _ _ _ (by decide), dictGet_dictSet_self]
    exact ⟨_, rfl⟩
  · rw [dictGet_dictSet_self]
    exact ⟨_, rfl, repairedQuestions_ok _⟩

theorem pyStr_str (s : PyStr) : pyStr (.str s) = s := rfl

theorem dictGet_of_getD_str (d : List (PyStr × Json)) (k : PyStr) (s : PyStr)
    (h : dictGetD d k .null = .str s) : dictGet d k = some (.str s) := by
  unfold dictGetD at h
  cases hg : dictGet d k with
  | none => rw [hg] at h; cases h
  | some v => rw [hg] at h; simp at h; rw [h]

theorem validateResponseStage_get (d : List (PyStr × Json)) :
    ∃ r, dictGet (validateResponseStage d) kResponse = some (.str r) ∧
      10 ≤ (pyStrip r).length := by
  simp only [validateResponseStage]
  by_cases h5 : isStrVal (dictGetD d kResponse .null) = true
  · rw [if_pos h5]
    obtain ⟨s, hs⟩ : ∃ s, dictGetD d kResponse .null = .str s := by
      cases hh : dictGetD d kResponse .null with
      | str s => exact ⟨s, rfl⟩
      | null => rw [hh] at h5; simp [isStrVal] at h5
      | bool b => rw [hh] at h5; simp [isStrVal] at h5
      | num q => rw [hh] at h5; simp [isStrVal] at h5
      | arr l => rw [hh] at h5; simp [isStrVal] at h5
      | obj o => rw [hh] at h5; simp [isStrVal] at h5
    rw [hs]
    simp only [pyStr_str]
    by_cases hc : s = [] ∨ (pyStrip s).length < 10
    · rw [if_pos hc]
      exact ⟨validatePlaceholder, dictGet_dictSet_self _ _ _, by decide⟩
    · rw [if_neg hc]
      push_neg at hc
      exact ⟨s, dictGet_of_getD_str d kResponse s hs, hc.2⟩
  · rw [if_neg h5]
    have hset : dictGetD (dictSet d kResponse (.str (pyStr (dictGetD d kResponse .null))))
        kResponse .null = .str (pyStr (dictGetD d kResponse .null)) := by
      unfold dictGetD
      rw [dictGet_dictSet_self]
      rfl
    rw [hset]
    simp only [pyStr_str]
    by_cases hc : pyStr (dictGetD d kResponse .null) = [] ∨
        (pyStrip (pyStr (dictGetD d kResponse .null))).length < 10
    · rw [if_pos hc]
      exact ⟨validatePlaceholder, dictGet_dictSet_self _ _ _, by decide⟩
    · rw [if_neg hc]
      push_neg at hc
      exact ⟨pyStr (dictGetD d kResponse .null), dictGet_dictSet_self _ _ _, hc.2⟩

theorem shapeOK_validate (v : Json) : shapeOK (validate_and_fix_json_structure v) := by
  cases v with
  | obj d0 =>
    show shapeOK (.obj (validateArraysStage (validateResponseStage
      (fixField (fixField (fixField (fixField d0 kResponse) kCodeBlocks) kLinks) kSuggested))))
    obtain ⟨hresp, ⟨bs, hbs⟩, ⟨ls, hls⟩, ⟨qs, hqs, h6, hall⟩⟩ :=
      validateArraysStage_get (validateResponseStage
        (fixField (fixField (fixField (fixField d0 kResponse) kCodeBlocks) kLinks) kSuggested))
    obtain ⟨r, hr, _⟩ := validateResponseStage_get
      (fixField (fixField (fixField (fixField d0 kResponse) kCodeBlocks) kLinks) kSuggested)
    refine ⟨⟨r, ?_⟩, ⟨bs, ?_⟩, ⟨ls, ?_⟩, ⟨qs, ?_, h6, hall⟩⟩
    · rw [jsonGetKey_obj]; unfold dictGetD; rw [hresp, hr]; rfl
    · rw [jsonGetKey_obj]; unfold dictGetD; rw [hbs]; rfl
    · rw [jsonGetKey_obj]; unfold dictGetD; rw [hls]; rfl
    · rw [jsonGetKey_obj]; unfold dictGetD; rw [hqs]; rfl
  | null => exact shapeOK_create_fallback _
  | bool b => exact shapeOK_create_fallback _
  | num q => exact shapeOK_create_fallback _
  | str s => exact shapeOK_create_fallback _
  | arr l => exact shapeOK_create_fallback _

/-- The response of `validate_and_fix_json_structure` on a dict input is a
string of trimmed length at least 10. -/
theorem validate_obj_response_len (d0 : List (PyStr × Json)) :
    ∃ r, jsonGetKey (validate_and_fix_json_structure (.obj d0)) kResponse = .str r ∧
      10 ≤ (pyStrip r).length := by
  obtain ⟨hresp, _, _, _⟩ :=
    validateArraysStage_get (validateResponseStage
      (fixField (fixField (fixField (fixField d0 kResponse) kCodeBlocks) kLinks) kSuggested))
  obtain ⟨r, hr, hlen⟩ := validateResponseStage_get
    (fixField (fixField (fixField (fixField d0 kResponse) kCodeBlocks) kLinks) kSuggested)
  refine ⟨r, ?_, hlen⟩
  show jsonGetKey (.obj (validateArraysStage (validateResponseStage
    (fixField (fixField (fixField (fixField d0 kResponse) kCodeBlocks) kLinks) kSuggested))))
    kResponse = .str r
  rw [jsonGetKey_obj]; unfold dictGetD; rw [hresp, hr]; rfl

/-- The response of `create_fallback_response` is a string, non-empty
after trimming, of length at most 3000. -/
theorem create_fallback_response_ok (v : Json) :
    ∃ r, jsonGetKey (create_fallback_response v) kResponse = .str r ∧
      pyStrip r ≠ [] ∧ r.length ≤ 3000 := by
  simp only [create_fallback_response]
  refine ⟨_, rfl, ?_, List.length_take_le 3000 _⟩
  by_cases h10 : (if truthy v = true then pyStrip (pyStr v) else []).length < 10
  · rw [if_pos h10]
    decide
  · rw [if_neg h10]
    by_cases ht : truthy v = true
    · rw [if_pos ht] at h10 ⊢
      refine pyStrip_take_ne_nil (pyStr v) 3000 (by norm_num) ?_
      intro h0
      rw [h0] at h10
      exact h10 (by norm_num)
    · rw [if_neg ht] at h10
      simp at h10

theorem strip_strip_ne (x : PyStr) (h : pyStrip x ≠ []) : pyStrip (pyStrip x) ≠ [] := by
  rw [pyStrip_idem]; exact h

theorem joinWithNewline_head? (l0 : PyStr) (rest : List PyStr) (h : l0 ≠ []) :
    (joinWithNewline (l0 :: rest)).head? = l0.head? := by
  cases rest with
  | nil => rfl
  | cons a t =>
    show (l0 ++ '\n' :: joinWithNewline (a :: t)).head? = l0.head?
    cases l0 with
    | nil => exact absurd rfl h
    | cons c cs => rfl

/-- The substantial-lines join of `enhanced_content_extraction` strips to
something non-empty. -/
theorem substantial_join_ne_nil (text : PyStr)
    (hne : ((splitOnNewline text).map pyStrip).filter (fun l => decide (10 < l.length)) ≠ []) :
    pyStrip (joinWithNewline
      ((((splitOnNewline text).map pyStrip).filter (fun l => decide (10 < l.length))).take 10))
      ≠ [] := by
  cases hsl : ((splitOnNewline text).map pyStrip).filter (fun l => decide (10 < l.length)) with
  | nil => exact absurd hsl hne
  | cons l0 rest =>
    have hmem : l0 ∈ ((splitOnNewline text).map pyStrip).filter
        (fun l => decide (10 < l.length)) := by
      rw [hsl]; exact List.mem_cons_self _ _
    have hlen : 10 < l0.length := of_decide_eq_true ((List.mem_filter.mp hmem).2)
    have hl0ne : l0 ≠ [] := by intro h0; rw [h0] at hlen; simp at hlen
    obtain ⟨c, hc⟩ : ∃ c, l0.head? = some c := by
      cases hh : l0.head? with
      | none => exact absurd (List.head?_eq_none_iff.mp hh) hl0ne
      | some d => exact ⟨d, rfl⟩
    obtain ⟨line, _, hline⟩ := List.mem_map.mp ((List.mem_filter.mp hmem).1)
    have hcs : isPySpace c = false := by
      apply pyStrip_head?_not_space line
      rw [hline]; exact hc
    have hjoin : (joinWithNewline ((l0 :: rest).take 10)).head? = some c := by
      show (joinWithNewline (l0 :: rest.take 9)).head? = some c
      rw [joinWithNewline_head? _ _ hl0ne]; exact hc
    exact pyStrip_ne_nil_of_mem _ c (head?_mem_self _ c hjoin) hcs

/-- Core of the response non-emptiness of `enhanced_content_extraction`,
stated over the collapsed prose `x` and the original text. -/
theorem enhanced_response_core (x text : PyStr) :
    pyStrip
      (if (if pyStrip x = [] ∨ (pyStrip x).length < 20 then
            (if ((splitOnNewline text).map pyStrip).filter (fun l => decide (10 < l.length)) ≠ []
             then joinWithNewline
               ((((splitOnNewline text).map pyStrip).filter
                 (fun l => decide (10 < l.length))).take 10)
             else pyStrip x)
          else pyStrip x) ≠ []
       then (if pyStrip x = [] ∨ (pyStrip x).length < 20 then
            (if ((splitOnNewline text).map pyStrip).filter (fun l => decide (10 < l.length)) ≠ []
             then joinWithNewline
               ((((splitOnNewline text).map pyStrip).filter
                 (fun l => decide (10 < l.length))).take 10)
             else pyStrip x)
          else pyStrip x)
       else ("AI response received but content could not be extracted properly.").data)
      ≠ [] := by
  by_cases hcond : pyStrip x = [] ∨ (pyStrip x).length < 20
  · rw [if_pos hcond]
    by_cases hsl : ((splitOnNewline text).map pyStrip).filter
        (fun l => decide (10 < l.length)) ≠ []
    · rw [if_pos hsl]
      have hj := substantial_join_ne_nil text hsl
      have hjne : joinWithNewline
          ((((splitOnNewline text).map pyStrip).filter
            (fun l => decide (10 < l.length))).take 10) ≠ [] := by
        intro h0; rw [h0] at hj; exact hj rfl
      rw [if_pos hjne]
      exact hj
    · rw [if_neg hsl]
      by_cases hx : pyStrip x ≠ []
      · rw [if_pos hx]; exact strip_strip_ne x hx
      · rw [if_neg hx]; decide
  · rw [if_neg hcond]
    push_neg at hcond
    rw [if_pos hcond.1]
    exact strip_strip_ne x hcond.1

/-- The response of `enhanced_content_extraction` is a string, non-empty
after trimming. -/
theorem enhanced_response_ok (t : PyStr) :
    ∃ r, jsonGetKey (enhanced_content_extraction t) kResponse = .str r ∧
      pyStrip r ≠ [] := by
  refine ⟨_, rfl, ?_⟩
  exact enhanced_response_core
    (collapseBlankLinesAux
      ((enhancedBlocksLoop (findCodeBlocks (t.length + 1) t) t).2.length + 1)
      (enhancedBlocksLoop (findCodeBlocks (t.length + 1) t) t).2) t

/-- In the total model the content-extraction gate always passes, so the
manual fallback is unreachable from `extract_json_from_response`. -/
theorem extractionFallback_eq (t : PyStr) :
    extractionFallback t = enhanced_content_extraction t := by
  obtain ⟨r, hr, hrs⟩ := enhanced_response_ok t
  have hrne : r ≠ [] := by intro h0; rw [h0] at hrs; exact hrs rfl
  have hgate : (truthy (enhanced_content_extraction t) &&
      truthy (jsonGetKey (enhanced_content_extraction t) kResponse)) = true := by
    rw [Bool.and_eq_true]
    refine ⟨rfl, ?_⟩
    rw [hr]
    cases r with
    | nil => exact absurd rfl hrne
    | cons c t2 => rfl
  simp only [extractionFallback]
  rw [if_pos hgate]

/-- Every value of the candidate loop is a validated parse or the
content-extraction result. -/
theorem candidateLoop_cases (cleaned : PyStr) (cands : List PyStr) :
    (∃ p, candidateLoop cleaned cands = validate_and_fix_json_structure p) ∨
    candidateLoop cleaned cands = enhanced_content_extraction cleaned := by
  induction cands with
  | nil => exact Or.inr (extractionFallback_eq cleaned)
  | cons c rest ih =>
    simp only [candidateLoop]
    cases h1 : json_loads (clean_json_string c) with
    | some parsed =>
      dsimp only
      by_cases hg : candidateGate parsed = true
      · rw [if_pos hg]; exact Or.inl ⟨parsed, rfl⟩
      · rw [if_neg hg]; exact ih
    | none =>
      dsimp only
      cases h2 : json_loads (fix_common_json_issues c) with
      | some parsed =>
        dsimp only
        by_cases hg : candidateGate parsed = true
        · rw [if_pos hg]; exact Or.inl ⟨parsed, rfl⟩
        · rw [if_neg hg]; exact ih
      | none => exact ih

/-- Every value of the string-normalization pipeline comes from one of the
three shape-preserving producers. -/
theorem normalizeText_cases (rt : PyStr) :
    (∃ v, normalizeText rt = create_fallback_response v) ∨
    (∃ p, normalizeText rt = validate_and_fix_json_structure p) ∨
    (∃ t, normalizeText rt = enhanced_content_extraction t) := by
  simp only [normalizeText]
  by_cases hlen : (pyStrip rt).length < 10
  · rw [if_pos hlen]; exact Or.inl ⟨_, rfl⟩
  · rw [if_neg hlen]
    cases hjl : json_loads (pyStrip rt) with
    | some parsed =>
      dsimp only
      by_cases hg : resultGate (validate_and_fix_json_structure parsed) = true
      · rw [if_pos hg]; exact Or.inr (Or.inl ⟨parsed, rfl⟩)
      · rw [if_neg hg]
        rcases candidateLoop_cases (pyStrip rt) (collectCandidates (pyStrip rt)) with
          ⟨p, hp⟩ | he
        · exact Or.inr (Or.inl ⟨p, hp⟩)
        · exact Or.inr (Or.inr ⟨_, he⟩)
    | none =>
      dsimp only
      rcases candidateLoop_cases (pyStrip rt) (collectCandidates (pyStrip rt)) with
        ⟨p, hp⟩ | he
      · exact Or.inr (Or.inl ⟨p, hp⟩)
      · exact Or.inr (Or.inr ⟨_, he⟩)

/-! ## The normalizer claims -/

/-- Keys of a dict result, in order. -/
def dictKeys (j : Json) : List PyStr :=
  match j with
  | .obj d => d.map Prod.fst
  | _ => []

/-- C1 (amended): `Normalize` (`extract_json_from_response`) is total on
every string input -- the model is a total function, so no exception can
escape -- and its output is a dict that contains the four required keys:
`response` a string, `code_blocks` and `links` sequences (possibly
empty), and `suggested_questions` a sequence of at most 6 entries, each a
non-empty string after trimming.  (Keys of a successfully parsed object
beyond the four are preserved, so "exactly the four keys" does not hold;
see the counterexample.) -/
theorem normalize_contains_required_keys (s : PyStr) :
    shapeOK (extract_json_from_response (.str s)) := by
  show shapeOK (normalizeText s)
  rcases normalizeText_cases s with ⟨v, hv⟩ | ⟨p, hp⟩ | ⟨t2, ht⟩
  · rw [hv]; exact shapeOK_create_fallback v
  · rw [hp]; exact shapeOK_validate p
  · rw [ht]; exact shapeOK_enhanced t2

def extraKeyInput : PyStr :=
  ("\x7b\"response\": \"This is a sufficiently long response.\", \"extra\": 1\x7d").data

/-- C1 counterexample: a valid-JSON string input with one key beyond the
schema yields an output with five keys -- the four required ones plus the
preserved "extra" -- so the output does not have exactly the four
required keys. -/
theorem normalize_extra_key_counterexample :
    dictKeys (extract_json_from_response (.str extraKeyInput)) =
      [kResponse, ("extra").data, kCodeBlocks, kLinks, kSuggested] ∧
    ("extra").data ∉ [kResponse, kCodeBlocks, kLinks, kSuggested] :=
  ⟨rfl, by decide⟩

/-- C6 (amended): for every input the `response` field of the normalizer
output is a string that is non-empty after trimming; the 10-character
minimum does not hold on the content-extraction path (see the
counterexample); and in the lowest-confidence fallback path
(`create_fallback_response`) the response is capped at 3000 characters. -/
theorem normalize_response_nonempty_capped :
    (∀ v : Json, ∃ r, jsonGetKey (extract_json_from_response v) kResponse = .str r ∧
      pyStrip r ≠ []) ∧
    (∀ v : Json, ∃ r, jsonGetKey (create_fallback_response v) kResponse = .str r ∧
      r.length ≤ 3000) := by
  have hfall : ∀ w : Json, ∃ r,
      jsonGetKey (create_fallback_response w) kResponse = .str r ∧ pyStrip r ≠ [] := by
    intro w
    obtain ⟨r, hr, hne, _⟩ := create_fallback_response_ok w
    exact ⟨r, hr, hne⟩
  have hval : ∀ p : Json, ∃ r,
      jsonGetKey (validate_and_fix_json_structure p) kResponse = .str r ∧
        pyStrip r ≠ [] := by
    intro p
    cases p with
    | obj d0 =>
      obtain ⟨r, hr, hlen⟩ := validate_obj_response_len d0
      refine ⟨r, hr, ?_⟩
      intro h0; rw [h0] at hlen; simp at hlen
    | null => exact hfall _
    | bool b => exact hfall _
    | num q => exact hfall _
    | str s => exact hfall _
    | arr l => exact hfall _
  have htext : ∀ rt : PyStr, ∃ r,
      jsonGetKey (normalizeText rt) kResponse = .str r ∧ pyStrip r ≠ [] := by
    intro rt
    rcases normalizeText_cases rt with ⟨w, hw⟩ | ⟨p, hp⟩ | ⟨t2, ht⟩
    · rw [hw]; exact hfall w
    · rw [hp]; exact hval p
    · rw [ht]; exact enhanced_response_ok t2
  constructor
  · intro v
    cases v with
    | obj d0 => exact hval (.obj d0)
    | null => exact htext (pyStr .null)
    | bool b => exact htext (pyStr (.bool b))
    | num q => exact htext (pyStr (.num q))
    | str s => exact htext s
    | arr l => exact htext (pyStr (.arr l))
  · intro v
    obtain ⟨r, hr, _, hcap⟩ := create_fallback_response_ok v
    exact ⟨r, hr, hcap⟩

/-- C6 counterexample: on the input "ab" followed by seven newlines and
"cd", the winning strategy is the content-extraction fallback, which is
returned without schema validation; its response is "ab", a blank line and
"cd", which strips to length 6 < 10 -- non-empty, but shorter than the
claimed 10-character minimum. -/
theorem normalize_short_response_counterexample :
    jsonGetKey (extract_json_from_response (.str ("ab\n\n\n\n\n\n\ncd").data)) kResponse =
      .str ("ab\n\ncd").data ∧
    (pyStrip ("ab\n\ncd").data).length < 10 ∧ ("ab\n\ncd").data ≠ [] :=
  ⟨rfl, by decide, by decide⟩

/-- C10: `Normalize` applied to the empty string returns the fixed
fallback structure: the canned sentence "Response was too short or empty"
as response and the fixed 6-item default question set of
`create_fallback_response`. -/
theorem normalize_empty_string :
    extract_json_from_response (.str []) =
      .obj [(kResponse, .str ("Response was too short or empty").data),
            (kCodeBlocks, .arr []), (kLinks, .arr []),
            (kSuggested, .arr fallbackQuestions)] := rfl

/-! ## Idempotence on schema-conforming objects -/

/-- A canonical code-block entry: exactly the three schema keys in order,
with string values. -/
def canonicalBlock (b : Json) : Bool :=
  match b with
  | .obj d =>
    match d with
    | [(k1, v1), (k2, v2), (k3, v3)] =>
      k1 == kLanguage && k2 == kCode && k3 == kDescription &&
      isStrVal v1 && isStrVal v2 && isStrVal v3
    | _ => false
  | _ => false

/-- A canonical link entry: exactly the three schema keys in order, with
string values. -/
def canonicalLink (b : Json) : Bool :=
  match b with
  | .obj d =>
    match d with
    | [(k1, v1), (k2, v2), (k3, v3)] =>
      k1 == kUrl && k2 == kTitle && k3 == kDescription &&
      isStrVal v1 && isStrVal v2 && isStrVal v3
    | _ => false
  | _ => false

/-- A canonical suggested question: a non-empty string equal to its own
strip. -/
def canonicalQuestion (b : Json) : Bool :=
  match b with
  | .str q => !q.isEmpty && pyStrip q == q
  | _ => false

theorem coerceCodeBlock_canonical (b : Json) (h : canonicalBlock b = true) :
    coerceCodeBlock b = some b := by
  cases b with
  | obj d =>
    cases d with
    | nil => exact Bool.noConfusion h
    | cons p1 d1 =>
      obtain ⟨k1, v1⟩ := p1
      cases d1 with
      | nil => exact Bool.noConfusion h
      | cons p2 d2 =>
        obtain ⟨k2, v2⟩ := p2
        cases d2 with
        | nil => exact Bool.noConfusion h
        | cons p3 d3 =>
          obtain ⟨k3, v3⟩ := p3
          cases d3 with
          | cons p4 d4 => exact Bool.noConfusion h
          | nil =>
            simp only [canonicalBlock, Bool.and_eq_true, beq_iff_eq] at h
            obtain ⟨⟨⟨⟨⟨h1, h2⟩, h3⟩, h4⟩, h5⟩, h6⟩ := h
            subst h1; subst h2; subst h3
            cases v1 with
            | str s1 =>
              cases v2 with
              | str s2 =>
                cases v3 with
                | str s3 => rfl
                | null => exact Bool.noConfusion h6
                | bool x => exact Bool.noConfusion h6
                | num x => exact Bool.noConfusion h6
                | arr x => exact Bool.noConfusion h6
                | obj x => exact Bool.noConfusion h6
              | null => exact Bool.noConfusion h5
              | bool x => exact Bool.noConfusion h5
              | num x => exact Bool.noConfusion h5
              | arr x => exact Bool.noConfusion h5
              | obj x => exact Bool.noConfusion h5
            | null => exact Bool.noConfusion h4
            | bool x => exact Bool.noConfusion h4
            | num x => exact Bool.noConfusion h4
            | arr x => exact Bool.noConfusion h4
            | obj x => exact Bool.noConfusion h4
  | null => exact Bool.noConfusion h
  | bool x => exact Bool.noConfusion h
  | num x => exact Bool.noConfusion h
  | str x => exact Bool.noConfusion h
  | arr x => exact Bool.noConfusion h

theorem coerceLink_canonical (b : Json) (h : canonicalLink b = true) :
    coerceLink b = some b := by
  cases b with
  | obj d =>
    cases d with
    | nil => exact Bool.noConfusion h
    | cons p1 d1 =>
      obtain ⟨k1, v1⟩ := p1
      cases d1 with
      | nil => exact Bool.noConfusion h
      | cons p2 d2 =>
        obtain ⟨k2, v2⟩ := p2
        cases d2 with
        | nil => exact Bool.noConfusion h
        | cons p3 d3 =>
          obtain ⟨k3, v3⟩ := p3
          cases d3 with
          | cons p4 d4 => exact Bool.noConfusion h
          | nil =>
            simp only [canonicalLink, Bool.and_eq_true, beq_iff_eq] at h
            obtain ⟨⟨⟨⟨⟨h1, h2⟩, h3⟩, h4⟩, h5⟩, h6⟩ := h
            subst h1; subst h2; subst h3
            cases v1 with
            | str s1 =>
              cases v2 with
              | str s2 =>
                cases v3 with
                | str s3 => rfl
                | null => exact Bool.noConfusion h6
                | bool x => exact Bool.noConfusion h6
                | num x => exact Bool.noConfusion h6
                | arr x => exact Bool.noConfusion h6
                | obj x => exact Bool.noConfusion h6
              | null => exact Bool.noConfusion h5
              | bool x => exact Bool.noConfusion h5
              | num x => exact Bool.noConfusion h5
              | arr x => exact Bool.noConfusion h5
              | obj x => exact Bool.noConfusion h5
            | null => exact Bool.noConfusion h4
            | bool x => exact Bool.noConfusion h4
            | num x => exact Bool.noConfusion h4
            | arr x => exact Bool.noConfusion h4
            | obj x => exact Bool.noConfusion h4
  | null => exact Bool.noConfusion h
  | bool x => exact Bool.noConfusion h
  | num x => exact Bool.noConfusion h
  | str x => exact Bool.noConfusion h
  | arr x => exact Bool.noConfusion h

theorem coerceQuestion_canonical (b : Json) (h : canonicalQuestion b = true) :
    coerceQuestion b = some b := by
  cases b with
  | str q =>
    simp only [canonicalQuestion, Bool.and_eq_true, beq_iff_eq] at h
    obtain ⟨h1, h2⟩ := h
    have hq : pyStrip q ≠ [] := by
      rw [h2]
      intro h0
      rw [h0] at h1
      exact Bool.noConfusion h1
    simp only [coerceQuestion]
    rw [if_pos hq, h2]
  | null => exact Bool.noConfusion h
  | bool x => exact Bool.noConfusion h
  | num x => exact Bool.noConfusion h
  | arr x => exact Bool.noConfusion h
  | obj x => exact Bool.noConfusion h

theorem filterMap_coerce_eq_self {f : Json → Option Json} {p : Json → Bool}
    (hf : ∀ b, p b = true → f b = some b) :
    ∀ l : List Json, l.all p = true → l.filterMap f = l := by
  intro l hl
  induction l with
  | nil => rfl
  | cons a t ih =>
    rw [List.all_cons, Bool.and_eq_true] at hl
    simp [List.filterMap_cons, hf a hl.1, ih hl.2]

/-- The canonical four-key object of the StructuredAnswer schema. -/
def schemaObj (r : PyStr) (bs ls qs : List Json) : List (PyStr × Json) :=
  [(kResponse, .str r), (kCodeBlocks, .arr bs), (kLinks, .arr ls),
   (kSuggested, .arr qs)]

theorem fixField_schemaObj_response (r : PyStr) (bs ls qs : List Json)
    (hr : 10 ≤ (pyStrip r).length) :
    fixField (schemaObj r bs ls qs) kResponse = schemaObj r bs ls qs := by
  have hne : r ≠ [] := by
    intro h0
    rw [h0] at hr
    simp [pyStrip] at hr
  simp only [fixField]
  rw [if_neg (fun hco => Bool.noConfusion hco), if_neg ?hc,
    if_neg (fun hco => Bool.noConfusion hco)]
  case hc =>
    intro hcontra
    rw [Bool.and_eq_true, Bool.or_eq_true] at hcontra
    rcases hcontra.2 with h1 | h2
    · have h1b : (!truthy (.str r)) = true := h1
      simp only [truthy, Bool.not_not] at h1b
      rw [List.isEmpty_iff] at h1b
      exact hne h1b
    · have h2b : (pyStrip r).length < 10 := of_decide_eq_true h2
      omega

theorem validateResponseStage_schemaObj (r : PyStr) (bs ls qs : List Json)
    (hr : 10 ≤ (pyStrip r).length) :
    validateResponseStage (schemaObj r bs ls qs) = schemaObj r bs ls qs := by
  have hne : r ≠ [] := by
    intro h0
    rw [h0] at hr
    simp [pyStrip] at hr
  simp only [validateResponseStage]
  rw [if_pos (show isStrVal (dictGetD (schemaObj r bs ls qs) kResponse .null) = true
    from rfl)]
  rw [if_neg ?hc]
  case hc =>
    intro hcontra
    rcases hcontra with h1 | h2
    · exact hne h1
    · have h2b : (pyStrip r).length < 10 := h2
      omega

theorem validateArraysStage_schemaObj (r : PyStr) (bs ls qs : List Json)
    (hbs : bs.all canonicalBlock = true) (hls : ls.all canonicalLink = true)
    (hqs : qs.all canonicalQuestion = true) (h6 : qs.length ≤ 6) (hne : qs ≠ []) :
    validateArraysStage (schemaObj r bs ls qs) = schemaObj r bs ls qs := by
  simp only [validateArraysStage]
  have hb : repairedBlocks (dictGetD (schemaObj r bs ls qs) kCodeBlocks (.arr [])) = bs := by
    show repairedBlocks (.arr bs) = bs
    simp only [repairedBlocks]
    exact filterMap_coerce_eq_self coerceCodeBlock_canonical bs hbs
  rw [hb, dictSet_self_of_get _ _ _
    (show dictGet (schemaObj r bs ls qs) kCodeBlocks = some (.arr bs) from rfl)]
  have hl : repairedLinks (dictGetD (schemaObj r bs ls qs) kLinks (.arr [])) = ls := by
    show repairedLinks (.arr ls) = ls
    simp only [repairedLinks]
    exact filterMap_coerce_eq_self coerceLink_canonical ls hls
  rw [hl, dictSet_self_of_get _ _ _
    (show dictGet (schemaObj r bs ls qs) kLinks = some (.arr ls) from rfl)]
  have hq : repairedQuestions (dictGetD (schemaObj r bs ls qs) kSuggested (.arr [])) = qs := by
    show repairedQuestions (.arr qs) = qs
    simp only [repairedQuestions]
    rw [filterMap_coerce_eq_self coerceQuestion_canonical qs hqs]
    rw [if_neg (by cases qs with
      | nil => exact absurd rfl hne
      | cons a t => simp)]
    exact List.take_of_length_le h6
  rw [hq, dictSet_self_of_get _ _ _
    (show dictGet (schemaObj r bs ls qs) kSuggested = some (.arr qs) from rfl)]

/-- C5 (amended): `Normalize` returns a schema-conforming object
unchanged, provided its suggested-question list is non-empty: `response` a
string of trimmed length at least 10; `code_blocks` and `links` lists of
canonical three-string-field entries; `suggested_questions` between 1 and
6 already-trimmed non-empty strings.  (On a conforming object whose
suggested-question list is empty -- allowed by the claim's "at most 6" --
the default set is substituted instead; see the counterexample.) -/
theorem normalize_idempotent_on_schema (r : PyStr) (bs ls qs : List Json)
    (hr : 10 ≤ (pyStrip r).length)
    (hbs : bs.all canonicalBlock = true) (hls : ls.all canonicalLink = true)
    (hqs : qs.all canonicalQuestion = true) (h6 : qs.length ≤ 6) (hne : qs ≠ []) :
    extract_json_from_response (.obj (schemaObj r bs ls qs)) =
      .obj (schemaObj r bs ls qs) := by
  show Json.obj (validateArraysStage (validateResponseStage
    (fixField (fixField (fixField (fixField (schemaObj r bs ls qs) kResponse)
      kCodeBlocks) kLinks) kSuggested))) = .obj (schemaObj r bs ls qs)
  rw [fixField_schemaObj_response r bs ls qs hr,
    show fixField (schemaObj r bs ls qs) kCodeBlocks = schemaObj r bs ls qs from rfl,
    show fixField (schemaObj r bs ls qs) kLinks = schemaObj r bs ls qs from rfl,
    show fixField (schemaObj r bs ls qs) kSuggested = schemaObj r bs ls qs from rfl,
    validateResponseStage_schemaObj r bs ls qs hr,
    validateArraysStage_schemaObj r bs ls qs hbs hls hqs h6 hne]

theorem normalize_idempotent_on_schema_witness :
    extract_json_from_response (.obj (schemaObj
      ("This is a concrete valid answer.").data [] []
      [.str ("What should I try next?").data])) =
    .obj (schemaObj ("This is a concrete valid answer.").data [] []
      [.str ("What should I try next?").data]) :=
  normalize_idempotent_on_schema _ _ _ _ (by decide) (by decide) (by decide)
    (by decide) (by decide) (by simp)

def cexResponse : PyStr := ("This answer is long enough.").data

/-- C5 counterexample: an object satisfying the claim's schema whose
suggested-question list is empty (hence has "at most 6 trimmed non-empty
entries") is not returned unchanged: the empty list is replaced by the
fixed default set of six questions. -/
theorem normalize_empty_questions_counterexample :
    jsonGetKey (extract_json_from_response (.obj (schemaObj cexResponse [] [] [])))
      kSuggested = .arr validateDefaultQuestions ∧
    extract_json_from_response (.obj (schemaObj cexResponse [] [] [])) ≠
      .obj (schemaObj cexResponse [] [] []) := by
  refine ⟨rfl, ?_⟩
  intro hEq
  have h1 : jsonGetKey (extract_json_from_response (.obj (schemaObj cexResponse [] [] [])))
      kSuggested = .arr validateDefaultQuestions := rfl
  rw [hEq] at h1
  have h2 : jsonGetKey (.obj (schemaObj cexResponse [] [] [])) kSuggested = .arr [] := rfl
  rw [h2] at h1
  simp [validateDefaultQuestions] at h1
